import Mathlib

/-!
Verification of the Enhanced RA.Aid server core against its design notes.

The definitions below are a shallow embedding of the per-connection
orchestration engine of the repository:

- `ConnectionState` and its methods embed
  `enhanced_ra_server/websocket_manager.py` (class `ConnectionState`);
- `WebSocketManager` embeds the registry in the same file;
- `MemorySaver` embeds the SQLite-backed store in
  `enhanced_ra_server/repositories/memory_repository.py`, with each table
  modelled as a list of rows in rowid (insertion) order, JSON values
  abstracted to strings, structured metadata as explicit key/value lists
  and wall-clock timestamps passed in explicitly;
- `process_next_task_go` and the `handle_*` functions embed the
  orchestrator in `enhanced_ra_server/enhanced_server.py`
  (`EnhancedRAServer.process_next_task` / `process_message`), with the
  three phase agents abstracted to a collaborator oracle
  `Collab : task_id -> phase -> Except errMsg result`, and a cancellation
  oracle recording at which in-flight phase awaits a `cancel` message for
  the active task interleaves.
-/

namespace EnhancedRA

/-- Abstract JSON-like values, enough for the metadata dictionaries the
server actually builds. -/
inductive JVal where
  | s (v : String)
  | b (v : Bool)
  | arr (vs : List String)
  | nul
deriving DecidableEq, Repr

/-- Serialized metadata dictionaries. -/
abbrev Meta := List (String × JVal)

/-- The task dictionary built by the `task` message handler
(`enhanced_server.py`, process_message, task branch). -/
structure Task where
  content : String
  task_id : String
  created_at : String
  status : String
deriving DecidableEq, Repr

/-- Per-connection state, from `websocket_manager.py` class
`ConnectionState.__init__`. -/
structure ConnectionState where
  model : Option String := none
  research_only : Bool := false
  client_id : Option String := none
  current_phase : Option String := none
  current_task_id : Option String := none
  task_queue : List Task := []
  completed_tasks : List String := []
  is_processing : Bool := false
  metadata : List (String × JVal) := []
deriving DecidableEq, Repr

/-- `ConnectionState.add_task`: append a task to the queue. -/
def ConnectionState.add_task (st : ConnectionState) (task : Task) : ConnectionState :=
  { st with task_queue := st.task_queue ++ [task] }

/-- `ConnectionState.get_next_task`: peek at the queue head. -/
def ConnectionState.get_next_task (st : ConnectionState) : Option Task :=
  st.task_queue.head?

/-- `ConnectionState.pop_next_task`: remove and return the queue head. -/
def ConnectionState.pop_next_task (st : ConnectionState) : Option Task × ConnectionState :=
  match st.task_queue with
  | [] => (none, st)
  | t :: rest => (some t, { st with task_queue := rest })

/-- `ConnectionState.mark_task_complete`: no-op unless the id matches the
active task; on match clear the pointer, stop processing and append to the
completed list. -/
def ConnectionState.mark_task_complete (st : ConnectionState) (tid : String) : ConnectionState :=
  if some tid = st.current_task_id then
    { st with current_task_id := none, is_processing := false,
              completed_tasks := st.completed_tasks ++ [tid] }
  else st

/-- Removal of the first queue entry with the given task id, as performed
by the loop plus `deque.remove` in `ConnectionState.cancel_task`. -/
def removeFirstTask (tid : String) : List Task → List Task
  | [] => []
  | t :: rest => if t.task_id = tid then rest else t :: removeFirstTask tid rest

/-- `ConnectionState.cancel_task`: clear the pointers if the id is the
active task (without touching the completed list), otherwise drop the
first matching queue entry, otherwise report failure. -/
def ConnectionState.cancel_task (st : ConnectionState) (tid : String) :
    Bool × ConnectionState :=
  if some tid = st.current_task_id then
    (true, { st with current_task_id := none, is_processing := false })
  else if st.task_queue.any (fun t => t.task_id == tid) then
    (true, { st with task_queue := removeFirstTask tid st.task_queue })
  else
    (false, st)

/-- `ConnectionState.has_pending_tasks`. -/
def ConnectionState.has_pending_tasks (st : ConnectionState) : Bool :=
  decide (st.task_queue.length > 0)

/-- Lookup in a Python dict modelled as an association list
(`dict.get(k)` returning `None` on a miss). -/
def dictGet {α : Type _} (k : String) (m : List (String × α)) : Option α :=
  (m.find? (fun p => p.1 == k)).map (·.2)

/-- Key removal in a Python dict modelled as an association list
(`dict.pop(k, None)`). -/
def dictErase {α : Type _} (k : String) (m : List (String × α)) : List (String × α) :=
  m.filter (fun p => !(p.1 == k))

/-- Key assignment in a Python dict modelled as an association list
(`d[k] = v`, replacing any previous binding). -/
def dictSet {α : Type _} (k : String) (v : α) (m : List (String × α)) :
    List (String × α) :=
  dictErase k m ++ [(k, v)]

/-- The connection registry from `websocket_manager.py` class
`WebSocketManager`: two dicts keyed by client id. The transport handle
type is abstract. -/
structure WebSocketManager (W : Type _) where
  active_connections : List (String × W) := []
  connection_states : List (String × ConnectionState) := []

/-- `WebSocketManager.add_connection`: register (or replace) both the
transport handle and the state for a client id. -/
def WebSocketManager.add_connection {W : Type _} (m : WebSocketManager W)
    (client_id : String) (websocket : W) (state : ConnectionState) :
    WebSocketManager W :=
  { active_connections := dictSet client_id websocket m.active_connections,
    connection_states := dictSet client_id state m.connection_states }

/-- `WebSocketManager.remove_connection`: drop both entries, silently
tolerating an absent id. -/
def WebSocketManager.remove_connection {W : Type _} (m : WebSocketManager W)
    (client_id : String) : WebSocketManager W :=
  { active_connections := dictErase client_id m.active_connections,
    connection_states := dictErase client_id m.connection_states }

/-- `WebSocketManager.get_connection`. -/
def WebSocketManager.get_connection {W : Type _} (m : WebSocketManager W)
    (client_id : String) : Option W :=
  dictGet client_id m.active_connections

/-- `WebSocketManager.get_state`. -/
def WebSocketManager.get_state {W : Type _} (m : WebSocketManager W)
    (client_id : String) : Option ConnectionState :=
  dictGet client_id m.connection_states

/-- A row of the `memory` table (primary key `(thread_id, key)`), values
kept in their serialized form. -/
structure MemRow where
  thread_id : String
  key : String
  value : String
  timestamp : Nat
deriving DecidableEq, Repr

/-- A row of the `task_history` table; list position plays the role of
the autoincrement rowid. -/
structure TaskRow where
  thread_id : String
  task_id : String
  content : String
  status : String
  created_at : Nat
  completed_at : Option Nat
  metadata : Option Meta
deriving DecidableEq, Repr

/-- A row of the append-only `task_logs` table. -/
structure LogRow where
  thread_id : String
  task_id : String
  message : String
  message_type : String
  timestamp : Nat
deriving DecidableEq, Repr

/-- The durable store from `repositories/memory_repository.py` class
`MemorySaver`. The `phase_results` table is written only by the phase
agents (external collaborators), so it is not modelled here. -/
structure MemorySaver where
  memory : List MemRow := []
  task_history : List TaskRow := []
  task_logs : List LogRow := []
deriving DecidableEq, Repr

/-- Primary-key test for the `memory` table. -/
def memKeyEq (thread_id key : String) (r : MemRow) : Bool :=
  r.thread_id == thread_id && r.key == key

/-- Key test for the `task_history` table (`WHERE thread_id = ? AND
task_id = ?`). -/
def taskKeyEq (thread_id task_id : String) (r : TaskRow) : Bool :=
  r.thread_id == thread_id && r.task_id == task_id

/-- `MemorySaver.store`: `INSERT OR REPLACE` into `memory` keyed by
`(thread_id, key)`; always writes to the caller-given partition. -/
def MemorySaver.store (m : MemorySaver) (key value thread_id : String)
    (now : Nat) : MemorySaver :=
  { m with memory := m.memory.filter (fun r => !(memKeyEq thread_id key r))
                      ++ [⟨thread_id, key, value, now⟩] }

/-- The first `SELECT value FROM memory WHERE thread_id = ? AND key = ?`
of `MemorySaver.retrieve`. -/
def MemorySaver.lookupMem (m : MemorySaver) (thread_id key : String) :
    Option String :=
  (m.memory.find? (memKeyEq thread_id key)).map (·.value)

/-- `MemorySaver.retrieve`: thread-local lookup, then a fallback to the
`global` partition only when the caller thread is not itself `global`,
else the default. -/
def MemorySaver.retrieve (m : MemorySaver) (key thread_id default : String) :
    String :=
  match m.lookupMem thread_id key with
  | some v => v
  | none =>
    if thread_id ≠ "global" then (m.lookupMem "global" key).getD default
    else default

/-- `MemorySaver.store_task`: insert a fresh row (stamping
`created_at := now`) when no row matches `(thread_id, task_id)`,
otherwise `UPDATE ... SET status = ?, metadata = ?` on every matching
row, leaving content, created_at and completed_at alone. -/
def MemorySaver.store_task (m : MemorySaver) (task_id content thread_id status : String)
    (metadata : Option Meta) (now : Nat) : MemorySaver :=
  if m.task_history.any (taskKeyEq thread_id task_id) then
    { m with task_history := m.task_history.map (fun r =>
        if taskKeyEq thread_id task_id r then
          { r with status := status, metadata := metadata }
        else r) }
  else
    { m with task_history :=
        m.task_history ++ [⟨thread_id, task_id, content, status, now, none, metadata⟩] }

/-- `MemorySaver.mark_task_complete`: `UPDATE task_history SET
status = completed, completed_at = now` (and metadata when given) on
every row matching `(thread_id, task_id)`; no insert path. -/
def MemorySaver.mark_task_complete (m : MemorySaver) (task_id thread_id : String)
    (metadata : Option Meta) (now : Nat) : MemorySaver :=
  { m with task_history := m.task_history.map (fun r =>
      if taskKeyEq thread_id task_id r then
        match metadata with
        | some md => { r with status := "completed", completed_at := some now,
                              metadata := some md }
        | none => { r with status := "completed", completed_at := some now }
      else r) }

/-- `MemorySaver.get_task`: first row (in rowid order) matching
`(thread_id, task_id)`, or absent. -/
def MemorySaver.get_task (m : MemorySaver) (task_id thread_id : String) :
    Option TaskRow :=
  m.task_history.find? (taskKeyEq thread_id task_id)

/-- `MemorySaver.get_task_history`: rows of a thread, optionally filtered
by status, most recent (largest rowid) first, paginated. -/
def MemorySaver.get_task_history (m : MemorySaver) (thread_id : String)
    (limit offset : Nat) (status : Option String) : List TaskRow :=
  ((m.task_history.filter (fun r =>
      r.thread_id == thread_id &&
      match status with
      | some st => r.status == st
      | none => true)).reverse.drop offset).take limit

/-- `MemorySaver.log_task_message`: pure append into `task_logs`. -/
def MemorySaver.log_task_message (m : MemorySaver) (task_id message message_type thread_id : String)
    (now : Nat) : MemorySaver :=
  { m with task_logs := m.task_logs ++ [⟨thread_id, task_id, message, message_type, now⟩] }

/-- `MemorySaver.get_task_logs`: log rows of one task, optionally
filtered by type, most recent first, paginated. -/
def MemorySaver.get_task_logs (m : MemorySaver) (task_id thread_id : String)
    (limit offset : Nat) (message_type : Option String) : List LogRow :=
  ((m.task_logs.filter (fun r =>
      r.thread_id == thread_id && r.task_id == task_id &&
      match message_type with
      | some mt => r.message_type == mt
      | none => true)).reverse.drop offset).take limit

/-- The outbound event catalogue written by `send_update` calls in
`enhanced_server.py`, with the payload fields the server actually
populates. -/
inductive Event where
  | pong
  | connection_established (client_id : String)
  | error (content : String) (task_id : Option String)
  | task_received (content task_id : String)
  | task_queued (task_id : String) (position : Nat)
  | task_marked_complete (task_id : String)
  | task_status (task_id status : String) (phase : Option String)
      (position : Option Nat) (created_at : Nat) (completed_at : Option Nat)
      (content : String)
  | all_task_status (current : Option (String × Option String))
      (queued : List (String × String × Nat)) (history : List TaskRow)
  | task_logs (task_id : String) (logs : List LogRow)
  | phase_started (phase task_id : String)
  | research_complete (content task_id : String)
  | planning_complete (content task_id : String)
  | implementation_complete (content task_id : String)
  | task_complete (content : Option String) (task_id : String)
  | task_cancelled (task_id : String)
  | all_tasks_cancelled
  | config_updated (model : Option String) (research_only : Bool)
deriving DecidableEq, Repr

/-- The task id an outbound event is about, when it carries one. -/
def eventTaskId : Event → Option String
  | .error _ tid => tid
  | .task_received _ tid => some tid
  | .task_queued tid _ => some tid
  | .task_marked_complete tid => some tid
  | .task_status tid _ _ _ _ _ _ => some tid
  | .task_logs tid _ => some tid
  | .phase_started _ tid => some tid
  | .research_complete _ tid => some tid
  | .planning_complete _ tid => some tid
  | .implementation_complete _ tid => some tid
  | .task_complete _ tid => some tid
  | .task_cancelled tid => some tid
  | _ => none

/-- The phase collaborator contract: `run_research_agent` /
`run_planning_agent` / `run_task_implementation_agent`, abstracted to a
function of the task id and the phase name that either returns a result
or raises an exception message. -/
def Collab := String → String → Except String String

/-- Which in-flight phase awaits of which task a `cancel{task_id}`
message for the active task interleaves with. `fun _ _ => false` is the
purely sequential execution. -/
def CancelOracle := String → String → Bool

/-- The oracle for the sequential runs in which no cancel message
arrives while a collaborator call is in flight. -/
def noCancel : CancelOracle := fun _ _ => false

/-- Ambient parameters of one session: the collaborator, the
cancellation oracle, the client (thread) id and the wall-clock time used
for the timestamps of the run. -/
structure SessCtx where
  collab : Collab
  cancelDuring : CancelOracle
  client_id : String
  now : Nat

/-- A session snapshot: the connection state, the durable store and the
events sent to the client so far. -/
structure Sess where
  state : ConnectionState
  store : MemorySaver
  events : List Event
deriving DecidableEq, Repr

/-- The `except` branch of `process_next_task` (enhanced_server.py lines
804-832): log the error, persist status `error` with the message and the
current phase in metadata, emit an `error` event, free the slot via
`ConnectionState.mark_task_complete` and continue with the next queued
task. `pnt` is the recursive `process_next_task` continuation. -/
def errorBranch (ctx : SessCtx) (task_id content e : String) (s : Sess)
    (pnt : Sess → Sess) : Sess :=
  let store := s.store.log_task_message task_id
      ("Error during task execution: " ++ e) "error" ctx.client_id ctx.now
  let store := store.store_task task_id content ctx.client_id "error"
      (some [("error", JVal.s e),
             ("phase", match s.state.current_phase with
                       | some p => JVal.s p
                       | none => JVal.nul)]) ctx.now
  let events := s.events ++ [Event.error ("Error during task execution: " ++ e) (some task_id)]
  let st := s.state.mark_task_complete task_id
  let s1 : Sess := ⟨st, store, events⟩
  if st.has_pending_tasks then pnt s1 else s1

/-- The cancel-active branch of `process_message` (enhanced_server.py
lines 446-475): clear the pointers, persist status `cancelled` with
empty content, log, emit `task_cancelled` and start the next queued task
if any. -/
def cancelActiveBranch (ctx : SessCtx) (task_id : String) (s : Sess)
    (pnt : Sess → Sess) : Sess :=
  let st := { s.state with current_task_id := none, is_processing := false }
  let store := s.store.store_task task_id "" ctx.client_id "cancelled" none ctx.now
  let store := store.log_task_message task_id
      "Task cancelled by user while in progress" "cancel" ctx.client_id ctx.now
  let events := s.events ++ [Event.task_cancelled task_id]
  let s1 : Sess := ⟨st, store, events⟩
  if st.has_pending_tasks then pnt s1 else s1

/-- One await point of the phase pipeline: while the collaborator call
for `(task_id, phase)` is in flight the session is suspended, and a
`cancel` message naming the active task may be handled there; the
pipeline itself performs no check when it resumes. -/
def awaitPoint (ctx : SessCtx) (task_id phase : String) (s : Sess)
    (pnt : Sess → Sess) : Sess :=
  if ctx.cancelDuring task_id phase then cancelActiveBranch ctx task_id s pnt
  else s

/-- Fuel-indexed embedding of `EnhancedRAServer.process_next_task`
(enhanced_server.py lines 571-832). Each recursive call strictly shrinks
the queue, so fuel equal to the queue length is exact (see
`process_next_task`). -/
def process_next_task_go (ctx : SessCtx) : Nat → Sess → Sess
  | 0, s => s
  | fuel + 1, s =>
    if s.state.is_processing then s
    else
      match s.state.pop_next_task with
      | (none, _) => s
      | (some task, st1) =>
        let task_id := task.task_id
        let content := task.content
        let st2 := { st1 with current_task_id := some task_id, is_processing := true }
        let store := s.store.store_task task_id content ctx.client_id "in_progress" none ctx.now
        let st3 := { st2 with current_phase := some "research" }
        let store := store.log_task_message task_id "Starting research phase"
            "phase_change" ctx.client_id ctx.now
        let events := s.events ++ [Event.phase_started "research" task_id]
        let s1 := awaitPoint ctx task_id "research" ⟨st3, store, events⟩
            (process_next_task_go ctx fuel)
        match ctx.collab task_id "research" with
        | Except.error e => errorBranch ctx task_id content e s1 (process_next_task_go ctx fuel)
        | Except.ok research_result =>
          let store := s1.store.log_task_message task_id "Research phase completed"
              "phase_complete" ctx.client_id ctx.now
          let events := s1.events ++ [Event.research_complete research_result task_id]
          if s1.state.research_only then
            let store := store.log_task_message task_id "Task completed in research-only mode"
                "complete" ctx.client_id ctx.now
            let events := events ++ [Event.task_complete (some "Research-only mode") task_id]
            let store := store.mark_task_complete task_id ctx.client_id
                (some [("research_only", JVal.b true)]) ctx.now
            let st := s1.state.mark_task_complete task_id
            let s2 : Sess := ⟨st, store, events⟩
            if st.has_pending_tasks then process_next_task_go ctx fuel s2 else s2
          else
            let st4 := { s1.state with current_phase := some "planning" }
            let store := store.log_task_message task_id "Starting planning phase"
                "phase_change" ctx.client_id ctx.now
            let events := events ++ [Event.phase_started "planning" task_id]
            let s2 := awaitPoint ctx task_id "planning" ⟨st4, store, events⟩
                (process_next_task_go ctx fuel)
            match ctx.collab task_id "planning" with
            | Except.error e => errorBranch ctx task_id content e s2 (process_next_task_go ctx fuel)
            | Except.ok planning_result =>
              let store := s2.store.log_task_message task_id "Planning phase completed"
                  "phase_complete" ctx.client_id ctx.now
              let events := s2.events ++ [Event.planning_complete planning_result task_id]
              let st5 := { s2.state with current_phase := some "implementation" }
              let store := store.log_task_message task_id "Starting implementation phase"
                  "phase_change" ctx.client_id ctx.now
              let events := events ++ [Event.phase_started "implementation" task_id]
              let s3 := awaitPoint ctx task_id "implementation" ⟨st5, store, events⟩
                  (process_next_task_go ctx fuel)
              match ctx.collab task_id "implementation" with
              | Except.error e => errorBranch ctx task_id content e s3 (process_next_task_go ctx fuel)
              | Except.ok implementation_result =>
                let store := s3.store.log_task_message task_id "Implementation phase completed"
                    "phase_complete" ctx.client_id ctx.now
                let events := s3.events ++ [Event.implementation_complete implementation_result task_id]
                let store := store.log_task_message task_id "Task completed successfully"
                    "complete" ctx.client_id ctx.now
                let events := events ++ [Event.task_complete none task_id]
                let store := store.mark_task_complete task_id ctx.client_id
                    (some [("phases_completed", JVal.arr ["research", "planning", "implementation"]),
                           ("model", match s3.state.model with
                                     | some mo => JVal.s mo
                                     | none => JVal.nul)]) ctx.now
                let st := s3.state.mark_task_complete task_id
                let s4 : Sess := ⟨st, store, events⟩
                if st.has_pending_tasks then process_next_task_go ctx fuel s4 else s4

/-- `EnhancedRAServer.process_next_task`. A queue of length `n` needs at
most `n` pops, so `n` units of fuel compute the full run. -/
def process_next_task (ctx : SessCtx) (s : Sess) : Sess :=
  process_next_task_go ctx s.state.task_queue.length s

/-- The `mark_complete` branch of `process_message` (enhanced_server.py
lines 296-333). Python truthiness makes a missing or empty task id a
validation error; otherwise the branch unconditionally marks complete in
state and store, appends a `complete` log, replies
`task_marked_complete` and may start the next queued task. -/
def handle_mark_complete (ctx : SessCtx) (task_id : Option String) (s : Sess) : Sess :=
  match task_id with
  | none => { s with events := s.events ++ [Event.error "Task ID is required" none] }
  | some tid =>
    if tid = "" then
      { s with events := s.events ++ [Event.error "Task ID is required" none] }
    else
      let st := s.state.mark_task_complete tid
      let store := s.store.mark_task_complete tid ctx.client_id none ctx.now
      let store := store.log_task_message tid "Task marked as complete by user"
          "complete" ctx.client_id ctx.now
      let events := s.events ++ [Event.task_marked_complete tid]
      let s1 : Sess := ⟨st, store, events⟩
      if st.has_pending_tasks then process_next_task ctx s1 else s1

/-- First index of a queue entry with the given task id, as found by the
enumeration loop of the `get_task_status` branch. -/
def queueIdxOf (tid : String) (q : List Task) : Option Nat :=
  q.findIdx? (fun t => t.task_id == tid)

/-- The `get_task_status` branch of `process_message`
(enhanced_server.py lines 335-410): with a (truthy) task id, report the
stored row overridden by in-progress or queued status, or an error when
the store has no row; without one, report a snapshot of the current
task, the queue and the recent history. The branch performs no writes. -/
def handle_get_task_status (ctx : SessCtx) (task_id : Option String) (s : Sess) : Sess :=
  let snapshot : Sess :=
    let tasks := s.store.get_task_history ctx.client_id 20 0 none
    let current := match s.state.current_task_id with
      | some cur => some (cur, s.state.current_phase)
      | none => none
    let queued := (List.range s.state.task_queue.length).zip s.state.task_queue
      |>.map (fun p => (p.2.task_id, p.2.content, p.1 + 1))
    { s with events := s.events ++ [Event.all_task_status current queued tasks] }
  match task_id with
  | none => snapshot
  | some tid =>
    if tid = "" then snapshot
    else
      match s.store.get_task tid ctx.client_id with
      | none =>
        { s with events := s.events ++ [Event.error ("Task " ++ tid ++ " not found") none] }
      | some row =>
        let stPhase : String × Option String :=
          if some tid = s.state.current_task_id then ("in_progress", s.state.current_phase)
          else (row.status, none)
        let stPos : String × Option Nat :=
          match queueIdxOf tid s.state.task_queue with
          | some i => ("queued", some (i + 1))
          | none => (stPhase.1, none)
        { s with events := s.events ++
            [Event.task_status tid stPos.1 stPhase.2 stPos.2 row.created_at
              row.completed_at row.content] }

/-- The cancel-queued loop body plus `for ... else` of the `cancel`
branch (enhanced_server.py lines 476-507). -/
def cancelQueuedBranch (ctx : SessCtx) (tid : String) (s : Sess) : Sess :=
  if s.state.task_queue.any (fun t => t.task_id == tid) then
    let st := { s.state with task_queue := removeFirstTask tid s.state.task_queue }
    let store := s.store.store_task tid "" ctx.client_id "cancelled" none ctx.now
    let store := store.log_task_message tid "Task cancelled by user while queued"
        "cancel" ctx.client_id ctx.now
    ⟨st, store, s.events ++ [Event.task_cancelled tid]⟩
  else
    { s with events := s.events ++ [Event.error ("Task " ++ tid ++ " not found") none] }

/-- The cancel-all path of the `cancel` branch (enhanced_server.py lines
508-532): clear the pointers, persist `cancelled` and a log entry for
every queued task, clear the queue and emit one `all_tasks_cancelled`. -/
def cancelAllBranch (ctx : SessCtx) (s : Sess) : Sess :=
  let st := { s.state with current_task_id := none, is_processing := false }
  let store := s.state.task_queue.foldl (fun acc t =>
      (acc.store_task t.task_id "" ctx.client_id "cancelled" none ctx.now).log_task_message
        t.task_id "Task cancelled as part of bulk cancellation" "cancel"
        ctx.client_id ctx.now) s.store
  ⟨{ st with task_queue := [] }, store, s.events ++ [Event.all_tasks_cancelled]⟩

/-- The `cancel` branch of `process_message` (enhanced_server.py lines
440-532). A truthy task id cancels the active task (reusing the
cancel-active code path) or a queued one, else replies an error; a
missing id cancels everything. -/
def handle_cancel (ctx : SessCtx) (task_id : Option String) (s : Sess) : Sess :=
  match task_id with
  | none => cancelAllBranch ctx s
  | some tid =>
    if tid = "" then cancelAllBranch ctx s
    else if some tid = s.state.current_task_id then
      cancelActiveBranch ctx tid s (process_next_task ctx)
    else
      cancelQueuedBranch ctx tid s

/-- The state-mutation prefix of `process_next_task` (enhanced_server.py
lines 579-590): when idle, pop the queue head and claim it as the active
task. The remainder of the pipeline mutates the connection state only
through `current_phase` and, at completion, through
`ConnectionState.mark_task_complete`, which the session-trace model of
claim C1 represents as separate later steps. -/
def startNext (st : ConnectionState) : ConnectionState :=
  if st.is_processing then st
  else
    match st.pop_next_task with
    | (none, _) => st
    | (some task, st1) =>
      { st1 with current_task_id := some task.task_id, is_processing := true }

/-- The connection-state effects of the `task` branch of
`process_message` (enhanced_server.py lines 227-294): reject empty
content, enqueue the task dictionary, and when the session is idle start
processing at once. -/
def submitTask (content tid created : String) (st : ConnectionState) :
    ConnectionState :=
  if content = "" then st
  else
    let st1 := st.add_task { content := content, task_id := tid,
                             created_at := created, status := "pending" }
    if st1.is_processing = false then startNext st1 else st1

/-- The public operations of one session that mutate its
`ConnectionState`, for the trace model of claim C1. -/
inductive SessionOp where
  | submit (content tid created : String)
  | start
  | complete (tid : String)
  | cancel (tid : String)
deriving DecidableEq, Repr

/-- Effect of a session operation on the connection state. -/
def applyOp (st : ConnectionState) : SessionOp → ConnectionState
  | .submit c tid created => submitTask c tid created st
  | .start => startNext st
  | .complete tid => st.mark_task_complete tid
  | .cancel tid => (st.cancel_task tid).2

/-- A whole trace of session operations. -/
def runOps (st : ConnectionState) (ops : List SessionOp) : ConnectionState :=
  ops.foldl applyOp st

/-- A task id is fresh for a state when it is neither the active task
nor queued. -/
def freshFor (st : ConnectionState) (tid : String) : Prop :=
  some tid ≠ st.current_task_id ∧ tid ∉ st.task_queue.map Task.task_id

/-- Traces whose (non-rejected) submissions always carry a fresh task
id. -/
def okOps : ConnectionState → List SessionOp → Prop
  | _, [] => True
  | st, op :: rest =>
    (match op with
     | .submit c tid _ => c ≠ "" → freshFor st tid
     | _ => True) ∧ okOps (applyOp st op) rest

/-- The inductive invariant behind claim C1: queued ids are pairwise
distinct, the active id is never queued, and a processing session has an
active id. -/
def SessionInv (st : ConnectionState) : Prop :=
  (st.task_queue.map Task.task_id).Nodup ∧
  (∀ c, st.current_task_id = some c → c ∉ st.task_queue.map Task.task_id) ∧
  (st.is_processing = true → st.current_task_id.isSome)

/-- `ConnectionState.__init__`: the state of a fresh connection. -/
def initialState (model : Option String) (research_only : Bool)
    (client_id : Option String) : ConnectionState :=
  { model := model, research_only := research_only, client_id := client_id }

/-- The first phase of a pipeline run at which the collaborator raises,
together with its exception message: research always runs; planning and
implementation run only outside research-only mode. -/
def firstFailure (coll : Collab) (tid : String) (research_only : Bool) :
    Option (String × String) :=
  match coll tid "research" with
  | Except.error e => some ("research", e)
  | Except.ok _ =>
    if research_only then none
    else
      match coll tid "planning" with
      | Except.error e => some ("planning", e)
      | Except.ok _ =>
        match coll tid "implementation" with
        | Except.error e => some ("implementation", e)
        | Except.ok _ => none

/-- Whether the string `sub` occurs as a contiguous substring of `msg`
(used to ask whether a log message names a phase). -/
def strMentions (msg sub : String) : Bool :=
  (List.range (msg.data.length + 1)).any
    (fun i => (msg.data.drop i).take sub.data.length == sub.data)

/-- Relation between a session snapshot and the result of running a part
of the pipeline whose tasks are drawn from the queue `q`: the event
stream, the log table and the completed list only grow, every new event
concerns a task of `q`, and history rows of task ids outside `q` are
untouched. -/
def RunDelta (q : List Task) (s s1 : Sess) : Prop :=
  (∃ d, s1.events = s.events ++ d ∧
     ∀ e ∈ d, ∃ u ∈ q, eventTaskId e = some u.task_id) ∧
  (∃ d, s1.store.task_logs = s.store.task_logs ++ d) ∧
  (∃ d, s1.state.completed_tasks = s.state.completed_tasks ++ d) ∧
  (∀ x, (∀ u ∈ q, ¬ u.task_id = x) →
     s1.store.task_history.filter (fun r => r.task_id == x) =
       s.store.task_history.filter (fun r => r.task_id == x))

/-! General lemmas about list lookup and filtering. -/

theorem find?_filter_self_none {α : Type _} (l : List α) (p : α → Bool) :
    (l.filter (fun x => !(p x))).find? p = none := by
  induction l with
  | nil => simp
  | cons a l ih =>
    by_cases h : p a = true
    · simp [List.filter, h, ih]
    · simp only [Bool.not_eq_true] at h
      simp [List.filter, h, List.find?, ih]

theorem find?_filter_of_imp {α : Type _} (l : List α) (p q : α → Bool)
    (h : ∀ x, p x = true → q x = false) :
    (l.filter (fun x => !(q x))).find? p = l.find? p := by
  induction l with
  | nil => simp
  | cons a l ih =>
    by_cases hq : q a = true
    · have hp : p a = false := by
        cases hpa : p a with
        | false => rfl
        | true => rw [h a hpa] at hq; cases hq
      simp [List.filter, hq, List.find?, hp, ih]
    · simp only [Bool.not_eq_true] at hq
      cases hp : p a with
      | false => simp [List.filter, hq, List.find?, hp, ih]
      | true => simp [List.filter, hq, List.find?, hp]

theorem filter_map_eq_filter {α : Type _} (l : List α) (f : α → α) (p : α → Bool)
    (h : ∀ r ∈ l, p (f r) = p r ∧ (p r = true → f r = r)) :
    (l.map f).filter p = l.filter p := by
  induction l with
  | nil => rfl
  | cons a l ih =>
    have ha := h a (List.mem_cons_self a l)
    have ih' := ih (fun r hr => h r (List.mem_cons_of_mem a hr))
    cases hp : p a with
    | false => simp [List.filter, hp, ha.1, ih']
    | true => simp [List.filter, hp, ha.1, ha.2 hp, ih']

/-!
Claim C6 — `ConnectionState.cancel_task` case analysis.
-/

theorem removeFirstTask_decomp (tid : String) (l1 l2 : List Task) (t2 : Task)
    (h1 : ∀ u ∈ l1, u.task_id ≠ tid) (h2 : t2.task_id = tid) :
    removeFirstTask tid (l1 ++ t2 :: l2) = l1 ++ l2 := by
  induction l1 with
  | nil => simp [removeFirstTask, h2]
  | cons a l1 ih =>
    have ha := h1 a (List.mem_cons_self a l1)
    have ih' := ih (fun u hu => h1 u (List.mem_cons_of_mem a hu))
    simp only [List.cons_append, removeFirstTask, if_neg ha, List.append_eq, ih']

/-- Claim C6: `cancel_task` on the active task returns true and clears
the pointers without touching the queue or the completed list; on a
queued (non-active) task it returns true and removes exactly the first
queue entry with that id, preserving the order of the others; on an
unknown id it returns false and leaves the state unchanged. -/
theorem C6_cancel_task (st : ConnectionState) (tid : String) :
    (some tid = st.current_task_id →
      st.cancel_task tid =
        (true, { st with current_task_id := none, is_processing := false })) ∧
    (some tid ≠ st.current_task_id →
      ∀ l1 t2 l2, st.task_queue = l1 ++ t2 :: l2 →
        (∀ u ∈ l1, u.task_id ≠ tid) → t2.task_id = tid →
        st.cancel_task tid = (true, { st with task_queue := l1 ++ l2 })) ∧
    (some tid ≠ st.current_task_id → tid ∉ st.task_queue.map Task.task_id →
      st.cancel_task tid = (false, st)) := by
  refine ⟨fun hcur => ?_, fun hcur l1 t2 l2 hq h1 h2 => ?_, fun hcur hq => ?_⟩
  · simp [ConnectionState.cancel_task, hcur]
  · have hany : st.task_queue.any (fun t => t.task_id == tid) = true := by
      simp only [List.any_eq_true]
      exact ⟨t2, by simp [hq], by simp [h2]⟩
    simp only [ConnectionState.cancel_task, if_neg hcur, hany, if_true]
    rw [hq, removeFirstTask_decomp tid l1 l2 t2 h1 h2]
  · have hany : st.task_queue.any (fun t => t.task_id == tid) = false := by
      simp only [List.any_eq_false, beq_iff_eq]
      intro t ht hteq
      exact hq (hteq ▸ List.mem_map_of_mem Task.task_id ht)
    simp [ConnectionState.cancel_task, hcur, hany]

/-- Witness for C6 at concrete states exercising all three cases. -/
theorem C6_cancel_task_witness :
    ({ initialState none false (some "c") with
       current_task_id := some "A", is_processing := true } : ConnectionState).cancel_task "A"
      = (true, { initialState none false (some "c") with
                 current_task_id := none, is_processing := false }) ∧
    ({ initialState none false (some "c") with
       task_queue := [⟨"b", "B", "u", "pending"⟩, ⟨"c", "C", "u", "pending"⟩] } :
        ConnectionState).cancel_task "B"
      = (true, { initialState none false (some "c") with
                 task_queue := [⟨"c", "C", "u", "pending"⟩] }) ∧
    (initialState none false (some "c")).cancel_task "Z"
      = (false, initialState none false (some "c")) := by
  refine ⟨(C6_cancel_task _ "A").1 (by decide), ?_, (C6_cancel_task _ "Z").2.2 (by decide) (by decide)⟩
  have h := (C6_cancel_task
      { initialState none false (some "c") with
        task_queue := [⟨"b", "B", "u", "pending"⟩, ⟨"c", "C", "u", "pending"⟩] } "B").2.1
    (by decide) [] ⟨"b", "B", "u", "pending"⟩ [⟨"c", "C", "u", "pending"⟩]
    (by decide) (by decide) (by decide)
  simpa using h

/-!
Claim C10 — the connection registry.
-/

theorem dictGet_dictSet_self {α : Type _} (k : String) (v : α) (m : List (String × α)) :
    dictGet k (dictSet k v m) = some v := by
  simp only [dictGet, dictSet, dictErase, List.find?_append]
  rw [find?_filter_self_none]
  simp [List.find?]

theorem dictGet_dictSet_ne {α : Type _} (k k2 : String) (v : α) (m : List (String × α))
    (h : k2 ≠ k) :
    dictGet k2 (dictSet k v m) = dictGet k2 m := by
  simp only [dictGet, dictSet, dictErase, List.find?_append]
  rw [find?_filter_of_imp]
  · have hkk : (k == k2) = false := beq_false_of_ne (Ne.symm h)
    have : (([(k, v)] : List (String × α)).find? (fun p => p.1 == k2)) = none := by
      simp [List.find?, hkk]
    rw [this]
    cases m.find? (fun p => p.1 == k2) <;> simp
  · intro x hx
    simp only [beq_iff_eq] at hx ⊢
    rw [hx]
    exact beq_false_of_ne h

theorem dictGet_none_of_not_mem {α : Type _} (k : String) (m : List (String × α))
    (h : k ∉ m.map Prod.fst) : dictGet k m = none := by
  have hf : m.find? (fun p => p.1 == k) = none := by
    rw [List.find?_eq_none]
    intro p hp
    simp only [beq_iff_eq]
    intro hk
    exact h (hk ▸ List.mem_map_of_mem Prod.fst hp)
  simp [dictGet, hf]

theorem dictErase_of_get_none {α : Type _} (k : String) (m : List (String × α))
    (h : dictGet k m = none) : dictErase k m = m := by
  have hf : m.find? (fun p => p.1 == k) = none := by
    cases hfind : m.find? (fun p => p.1 == k) with
    | none => rfl
    | some p => rw [dictGet, hfind] at h; simp at h
  rw [List.find?_eq_none] at hf
  apply List.filter_eq_self.mpr
  intro p hp
  simpa using hf p hp

theorem dictSet_filter_key {α : Type _} (k : String) (v : α) (m : List (String × α)) :
    (dictSet k v m).filter (fun p => p.1 == k) = [(k, v)] := by
  simp only [dictSet, dictErase, List.filter_append]
  have h1 : (m.filter (fun p => !(p.1 == k))).filter (fun p => p.1 == k) = [] := by
    rw [List.filter_filter]
    apply List.filter_eq_nil_iff.mpr
    intro p _
    cases h : p.1 == k <;> simp [h]
  rw [h1]
  simp [List.filter]

/-- Claim C10: registering an already-registered client id replaces both
the stored transport handle and the stored state (the old entries become
unreachable), removal of an unregistered id is a silent no-op, and both
lookups return none for unknown ids. -/
theorem C10_registry {W : Type} (m : WebSocketManager W) (cid cid2 : String)
    (ws : W) (st : ConnectionState) :
    ((m.add_connection cid ws st).get_connection cid = some ws ∧
     (m.add_connection cid ws st).get_state cid = some st ∧
     (m.add_connection cid ws st).active_connections.filter (fun p => p.1 == cid) = [(cid, ws)] ∧
     (m.add_connection cid ws st).connection_states.filter (fun p => p.1 == cid) = [(cid, st)] ∧
     (cid2 ≠ cid →
       (m.add_connection cid ws st).get_connection cid2 = m.get_connection cid2 ∧
       (m.add_connection cid ws st).get_state cid2 = m.get_state cid2)) ∧
    (m.get_connection cid = none → m.get_state cid = none →
      m.remove_connection cid = m) ∧
    (cid ∉ m.active_connections.map Prod.fst → m.get_connection cid = none) ∧
    (cid ∉ m.connection_states.map Prod.fst → m.get_state cid = none) := by
  refine ⟨⟨?_, ?_, ?_, ?_, fun h => ⟨?_, ?_⟩⟩, fun h1 h2 => ?_, fun h => ?_, fun h => ?_⟩
  · exact dictGet_dictSet_self cid ws m.active_connections
  · exact dictGet_dictSet_self cid st m.connection_states
  · exact dictSet_filter_key cid ws m.active_connections
  · exact dictSet_filter_key cid st m.connection_states
  · exact dictGet_dictSet_ne cid cid2 ws m.active_connections h
  · exact dictGet_dictSet_ne cid cid2 st m.connection_states h
  · simp only [WebSocketManager.remove_connection,
      dictErase_of_get_none cid m.active_connections h1,
      dictErase_of_get_none cid m.connection_states h2]
  · exact dictGet_none_of_not_mem cid m.active_connections h
  · exact dictGet_none_of_not_mem cid m.connection_states h

/-- Witness for C10 on a concrete registry whose only entry gets
replaced, with unknown-id lookups and removal. -/
theorem C10_registry_witness :
    (({ active_connections := [("c", 7)],
        connection_states := [("c", initialState none false (some "c"))] } :
          WebSocketManager Nat).add_connection "c" 9
            (initialState none true (some "c"))).get_connection "c" = some 9 ∧
    (({ active_connections := [("c", 7)],
        connection_states := [("c", initialState none false (some "c"))] } :
          WebSocketManager Nat).remove_connection "z")
      = { active_connections := [("c", 7)],
          connection_states := [("c", initialState none false (some "c"))] } ∧
    (({ active_connections := [("c", 7)],
        connection_states := [("c", initialState none false (some "c"))] } :
          WebSocketManager Nat).get_state "z") = none := by
  refine ⟨(C10_registry _ "c" "z" 9 (initialState none true (some "c"))).1.1, ?_, ?_⟩
  · exact (C10_registry
      { active_connections := [("c", 7)],
        connection_states := [("c", initialState none false (some "c"))] }
      "z" "c" 7 (initialState none false (some "c"))).2.1 (by decide) (by decide)
  · exact (C10_registry
      { active_connections := [("c", 7)],
        connection_states := [("c", initialState none false (some "c"))] }
      "z" "c" 7 (initialState none false (some "c"))).2.2.2 (by decide)

/-!
Claim C2 — key/value memory with global fallback.
-/

theorem lookupMem_store (m : MemorySaver) (key value thread : String) (now : Nat)
    (T k : String) :
    (m.store key value thread now).lookupMem T k =
      if T = thread ∧ k = key then some value else m.lookupMem T k := by
  by_cases h : T = thread ∧ k = key
  · obtain ⟨h1, h2⟩ := h
    subst h1; subst h2
    rw [if_pos ⟨rfl, rfl⟩]
    simp only [MemorySaver.store, MemorySaver.lookupMem, List.find?_append]
    rw [find?_filter_self_none]
    simp [List.find?, memKeyEq]
  · simp only [MemorySaver.store, MemorySaver.lookupMem, List.find?_append, if_neg h]
    rw [find?_filter_of_imp]
    · have hrow : memKeyEq T k ⟨thread, key, value, now⟩ = false := by
        apply Bool.eq_false_iff.mpr
        intro hcon
        simp only [memKeyEq, Bool.and_eq_true, beq_iff_eq] at hcon
        exact h ⟨hcon.1.symm, hcon.2.symm⟩
      rw [show (([⟨thread, key, value, now⟩] : List MemRow).find? (memKeyEq T k)) = none by
        simp [List.find?, hrow]]
      cases m.memory.find? (memKeyEq T k) <;> simp
    · intro x hx
      apply Bool.eq_false_iff.mpr
      intro hcon
      simp only [memKeyEq, Bool.and_eq_true, beq_iff_eq] at hcon hx
      exact h ⟨hx.1.symm.trans hcon.1, hx.2.symm.trans hcon.2⟩

/-- Claim C2: a value stored under the global partition is visible from
any other thread with no local row; a later local store overrides it;
retrieval under the global thread itself consults only global rows; and
a store writes only to its own partition. -/
theorem C2_memory_semantics (m : MemorySaver) (k v v2 T d : String) (n1 n2 : Nat)
    (hT : T ≠ "global") :
    (m.lookupMem T k = none →
      (m.store k v "global" n1).retrieve k T d = v) ∧
    (((m.store k v "global" n1).store k v2 T n2).retrieve k T d = v2) ∧
    (∀ d2, m.retrieve k "global" d2 = (m.lookupMem "global" k).getD d2) ∧
    (∀ T2 k2, T2 ≠ T → (m.store k v2 T n2).lookupMem T2 k2 = m.lookupMem T2 k2) := by
  refine ⟨fun hmiss => ?_, ?_, fun d2 => ?_, fun T2 k2 hne => ?_⟩
  · have h1 : (m.store k v "global" n1).lookupMem T k = none := by
      rw [lookupMem_store, if_neg (fun hc => hT hc.1), hmiss]
    have h2 : (m.store k v "global" n1).lookupMem "global" k = some v := by
      rw [lookupMem_store, if_pos ⟨rfl, rfl⟩]
    simp [MemorySaver.retrieve, h1, h2, hT]
  · have h1 : ((m.store k v "global" n1).store k v2 T n2).lookupMem T k = some v2 := by
      rw [lookupMem_store, if_pos ⟨rfl, rfl⟩]
    simp [MemorySaver.retrieve, h1]
  · simp only [MemorySaver.retrieve]
    cases h : m.lookupMem "global" k <;> simp
  · rw [lookupMem_store, if_neg (fun hc => hne hc.1)]

/-- Witness for C2 on a concrete store: global write, fallback read,
local override, and partition isolation. -/
theorem C2_memory_semantics_witness :
    (({} : MemorySaver).store "k" "v" "global" 1).retrieve "k" "t" "d" = "v" ∧
    ((({} : MemorySaver).store "k" "v" "global" 1).store "k" "w" "t" 2).retrieve "k" "t" "d" = "w" ∧
    (({} : MemorySaver).store "k" "w" "t" 2).lookupMem "u" "k" = ({} : MemorySaver).lookupMem "u" "k" := by
  have h := C2_memory_semantics {} "k" "v" "w" "t" "d" 1 2 (by decide)
  exact ⟨h.1 (by rfl), h.2.1, h.2.2.2 "u" "k" (by decide)⟩

/-!
Claim C5 — upsert semantics of `store_task`.
-/

/-- Claim C5: on an existing `(thread_id, task_id)` row, `store_task`
keeps the row count and every column except status and metadata of every
row (in particular content and created_at, so the cancellation path with
empty content preserves the original description), rewriting status and
metadata of the matching rows only; with no such row it appends a fresh
row stamped `created_at := now`. -/
theorem C5_store_task_upsert (m : MemorySaver) (tid content th status : String)
    (md : Option Meta) (now : Nat) :
    (m.task_history.any (taskKeyEq th tid) = true →
      (m.store_task tid content th status md now).task_history.length =
          m.task_history.length ∧
      ∀ (i : Nat) r r', m.task_history[i]? = some r →
        (m.store_task tid content th status md now).task_history[i]? = some r' →
        r'.content = r.content ∧ r'.created_at = r.created_at ∧
        r'.completed_at = r.completed_at ∧ r'.thread_id = r.thread_id ∧
        r'.task_id = r.task_id ∧
        (taskKeyEq th tid r = true → r'.status = status ∧ r'.metadata = md) ∧
        (taskKeyEq th tid r = false → r' = r)) ∧
    (m.task_history.any (taskKeyEq th tid) = false →
      (m.store_task tid content th status md now).task_history =
        m.task_history ++ [⟨th, tid, content, status, now, none, md⟩]) := by
  constructor
  · intro hex
    unfold MemorySaver.store_task
    split
    · refine ⟨List.length_map _ _, fun i r r' hr hr' => ?_⟩
      rw [List.getElem?_map, hr] at hr'
      injection hr' with hr'
      subst hr'
      cases hk : taskKeyEq th tid r <;> simp [hk]
    · simp_all
  · intro hmiss
    unfold MemorySaver.store_task
    split
    · simp_all
    · rfl

/-- Witness for C5: a status-only update with empty content preserves
the stored description, and an insert stamps created_at. -/
theorem C5_store_task_upsert_witness :
    ((({} : MemorySaver).store_task "T1" "describe it" "c" "pending" none 4).store_task
        "T1" "" "c" "cancelled" none 9).task_history.length = 1 ∧
    (((({} : MemorySaver).store_task "T1" "describe it" "c" "pending" none 4).store_task
        "T1" "" "c" "cancelled" none 9).task_history[0]?).map TaskRow.content
      = some "describe it" ∧
    (({} : MemorySaver).store_task "T1" "describe it" "c" "pending" none 4).task_history
      = [⟨"c", "T1", "describe it", "pending", 4, none, none⟩] := by
  have hins := (C5_store_task_upsert {} "T1" "describe it" "c" "pending" none 4).2 (by rfl)
  have hupd := (C5_store_task_upsert
      (({} : MemorySaver).store_task "T1" "describe it" "c" "pending" none 4)
      "T1" "" "c" "cancelled" none 9).1 (by rw [hins]; rfl)
  refine ⟨by rw [hupd.1, hins]; rfl, ?_, hins⟩
  have h0 := hupd.2 0 ⟨"c", "T1", "describe it", "pending", 4, none, none⟩
    ⟨"c", "T1", "describe it", "cancelled", 4, none, none⟩ (by rw [hins]; rfl) (by decide)
  decide

/-!
Claim C8 — idempotent completion.
-/

theorem filter_map_of_pres {α : Type _} (l : List α) (f : α → α) (p : α → Bool)
    (h : ∀ r, p (f r) = p r) :
    (l.map f).filter p = (l.filter p).map f := by
  induction l with
  | nil => rfl
  | cons a l ih =>
    cases hp : p a with
    | false => simp [List.filter, hp, h a, ih]
    | true => simp [List.filter, hp, h a, ih]

theorem mark_keyEq_pres (tid th : String) (md : Option Meta) (n : Nat) (r : TaskRow) :
    taskKeyEq th tid
      (if taskKeyEq th tid r then
        match md with
        | some m0 => { r with status := "completed", completed_at := some n, metadata := some m0 }
        | none => { r with status := "completed", completed_at := some n }
      else r) = taskKeyEq th tid r := by
  cases hk : taskKeyEq th tid r with
  | false => simp [hk]
  | true => cases md <;> simp [taskKeyEq] at hk ⊢ <;> exact hk

theorem mark_task_complete_filter (m : MemorySaver) (tid th : String)
    (md : Option Meta) (n : Nat) :
    (m.mark_task_complete tid th md n).task_history.filter (taskKeyEq th tid) =
      (m.task_history.filter (taskKeyEq th tid)).map (fun r =>
        match md with
        | some m0 => { r with status := "completed", completed_at := some n, metadata := some m0 }
        | none => { r with status := "completed", completed_at := some n }) := by
  simp only [MemorySaver.mark_task_complete]
  rw [filter_map_of_pres _ _ _ (mark_keyEq_pres tid th md n)]
  apply List.map_congr_left
  intro r hr
  rw [if_pos (List.mem_filter.mp hr).2]

/-- Claim C8: two successive `mark_task_complete` calls on a task with
an existing history row leave every matching row with status completed
and completed_at stamped by the later call, and change no row counts. -/
theorem C8_complete_idempotent (m : MemorySaver) (tid th : String)
    (md1 md2 : Option Meta) (n1 n2 : Nat)
    (hex : m.task_history.filter (taskKeyEq th tid) ≠ []) :
    ((m.mark_task_complete tid th md1 n1).mark_task_complete tid th md2 n2).task_history.length
      = m.task_history.length ∧
    (((m.mark_task_complete tid th md1 n1).mark_task_complete tid th md2 n2).task_history.filter
        (taskKeyEq th tid)).length
      = (m.task_history.filter (taskKeyEq th tid)).length ∧
    ((m.mark_task_complete tid th md1 n1).mark_task_complete tid th md2 n2).task_history.filter
        (taskKeyEq th tid) ≠ [] ∧
    ∀ r ∈ ((m.mark_task_complete tid th md1 n1).mark_task_complete tid th md2 n2).task_history.filter
        (taskKeyEq th tid), r.status = "completed" ∧ r.completed_at = some n2 := by
  have hflen : (((m.mark_task_complete tid th md1 n1).mark_task_complete tid th md2 n2).task_history.filter
      (taskKeyEq th tid)) =
    ((m.task_history.filter (taskKeyEq th tid)).map (fun r =>
        match md1 with
        | some m0 => { r with status := "completed", completed_at := some n1, metadata := some m0 }
        | none => { r with status := "completed", completed_at := some n1 })).map (fun r =>
        match md2 with
        | some m0 => { r with status := "completed", completed_at := some n2, metadata := some m0 }
        | none => { r with status := "completed", completed_at := some n2 }) := by
    rw [mark_task_complete_filter, mark_task_complete_filter]
  refine ⟨?_, ?_, ?_, ?_⟩
  · simp [MemorySaver.mark_task_complete]
  · rw [hflen]; simp
  · rw [hflen]
    intro hcon
    apply hex
    simpa using hcon
  · intro r hr
    rw [hflen] at hr
    obtain ⟨r1, _, hr1⟩ := List.mem_map.mp hr
    subst hr1
    cases md2 <;> simp

/-- Witness for C8 on a one-row store completed twice. -/
theorem C8_complete_idempotent_witness :
    ((((({} : MemorySaver).store_task "T1" "x" "c" "pending" none 1).mark_task_complete
        "T1" "c" none 5).mark_task_complete "T1" "c" none 8).task_history.length = 1) ∧
    ∀ r ∈ (((({} : MemorySaver).store_task "T1" "x" "c" "pending" none 1).mark_task_complete
        "T1" "c" none 5).mark_task_complete "T1" "c" none 8).task_history.filter
        (taskKeyEq "c" "T1"), r.status = "completed" ∧ r.completed_at = some 8 := by
  have h := C8_complete_idempotent
    (({} : MemorySaver).store_task "T1" "x" "c" "pending" none 1) "T1" "c" none none 5 8
    (by decide)
  exact ⟨by rw [h.1]; rfl, h.2.2.2⟩

/-!
Claim C1 — the at-most-one-active invariant over session traces.
-/

theorem removeFirstTask_sublist (tid : String) (l : List Task) :
    List.Sublist (removeFirstTask tid l) l := by
  induction l with
  | nil => exact List.Sublist.refl []
  | cons a l ih =>
    by_cases h : a.task_id = tid
    · simp only [removeFirstTask, if_pos h]
      exact List.sublist_cons_self a l
    · simp only [removeFirstTask, if_neg h]
      exact List.Sublist.cons₂ a ih

theorem startNext_inv (st : ConnectionState) (hInv : SessionInv st) :
    SessionInv (startNext st) := by
  obtain ⟨h1, h2, h3⟩ := hInv
  unfold startNext
  by_cases hp : st.is_processing
  · rw [if_pos hp]; exact ⟨h1, h2, h3⟩
  · rw [if_neg hp]
    cases hq : st.task_queue with
    | nil => simp only [ConnectionState.pop_next_task, hq]; exact ⟨h1, h2, h3⟩
    | cons t rest =>
      simp only [ConnectionState.pop_next_task, hq]
      rw [hq] at h1
      simp only [List.map_cons, List.nodup_cons] at h1
      refine ⟨h1.2, fun c hc => ?_, fun _ => rfl⟩
      simp only [Option.some.injEq] at hc
      exact hc ▸ h1.1

theorem sessionInv_applyOp (st : ConnectionState) (op : SessionOp)
    (hInv : SessionInv st)
    (hop : match op with
           | .submit c tid _ => c ≠ "" → freshFor st tid
           | _ => True) :
    SessionInv (applyOp st op) := by
  obtain ⟨h1, h2, h3⟩ := hInv
  cases op with
  | submit c tid created =>
    simp only [applyOp, submitTask]
    by_cases hc : c = ""
    · rw [if_pos hc]; exact ⟨h1, h2, h3⟩
    · rw [if_neg hc]
      obtain ⟨hf1, hf2⟩ := hop hc
      have hInv1 : SessionInv (st.add_task
          { content := c, task_id := tid, created_at := created, status := "pending" }) := by
        refine ⟨?_, fun x hx => ?_, fun hpr => h3 hpr⟩
        · simp only [ConnectionState.add_task, List.map_append, List.map_cons, List.map_nil]
          rw [List.nodup_append]
          exact ⟨h1, List.nodup_singleton tid, by
            intro a ha hb
            simp only [List.mem_singleton] at hb
            exact hf2 (hb ▸ ha)⟩
        · simp only [ConnectionState.add_task] at hx
          simp only [ConnectionState.add_task, List.map_append, List.map_cons, List.map_nil,
            List.mem_append, List.mem_singleton]
          rintro (hin | heq)
          · exact h2 x hx hin
          · subst heq
            exact hf1 hx.symm
      by_cases hp : (st.add_task
          { content := c, task_id := tid, created_at := created, status := "pending" }).is_processing = false
      · rw [if_pos hp]; exact startNext_inv _ hInv1
      · rw [if_neg hp]; exact hInv1
  | start =>
    exact startNext_inv st ⟨h1, h2, h3⟩
  | complete tid =>
    simp only [applyOp, ConnectionState.mark_task_complete]
    by_cases hcur : some tid = st.current_task_id
    · rw [if_pos hcur]
      refine ⟨h1, fun c hc => ?_, fun hpr => ?_⟩
      · cases hc
      · cases hpr
    · rw [if_neg hcur]; exact ⟨h1, h2, h3⟩
  | cancel tid =>
    simp only [applyOp, ConnectionState.cancel_task]
    by_cases hcur : some tid = st.current_task_id
    · rw [if_pos hcur]
      refine ⟨h1, fun c hc => ?_, fun hpr => ?_⟩
      · cases hc
      · cases hpr
    · rw [if_neg hcur]
      by_cases hq : st.task_queue.any (fun t => t.task_id == tid) = true
      · rw [if_pos hq]
        have hsub := (removeFirstTask_sublist tid st.task_queue).map Task.task_id
        exact ⟨h1.sublist hsub, fun c hc hin => h2 c hc (hsub.mem hin), fun hpr => h3 hpr⟩
      · rw [if_neg hq]; exact ⟨h1, h2, h3⟩

theorem sessionInv_runOps (st : ConnectionState) (ops : List SessionOp)
    (hInv : SessionInv st) (hok : okOps st ops) : SessionInv (runOps st ops) := by
  induction ops generalizing st with
  | nil => exact hInv
  | cons op rest ih =>
    simp only [okOps] at hok
    simp only [runOps, List.foldl_cons]
    exact ih (applyOp st op) (sessionInv_applyOp st op hInv hok.1) hok.2

/-- Counterexample to claim C1 as stated: the code never checks
caller-supplied task ids, so submitting a second task that reuses the
id of the active task yields a processing state whose active id is also
queued. -/
theorem C1_counterexample :
    (runOps (initialState none false (some "c"))
        [SessionOp.submit "work" "A" "t0", SessionOp.submit "more" "A" "t1"]).is_processing
      = true ∧
    (runOps (initialState none false (some "c"))
        [SessionOp.submit "work" "A" "t0", SessionOp.submit "more" "A" "t1"]).current_task_id
      = some "A" ∧
    "A" ∈ (runOps (initialState none false (some "c"))
        [SessionOp.submit "work" "A" "t0", SessionOp.submit "more" "A" "t1"]).task_queue.map
        Task.task_id := by
  decide

/-- Claim C1 (amended): over every trace of the public session
operations in which each submitted task id is fresh (neither the active
task nor already queued at submission time), a processing state has
exactly one active task id and that id is not in the queue. Without the
freshness proviso the claim fails, see the counterexample. -/
theorem C1_at_most_one_active (model : Option String) (ro : Bool) (cid : Option String)
    (ops : List SessionOp) (hok : okOps (initialState model ro cid) ops)
    (hproc : (runOps (initialState model ro cid) ops).is_processing = true) :
    ∃ tid, (runOps (initialState model ro cid) ops).current_task_id = some tid ∧
      tid ∉ (runOps (initialState model ro cid) ops).task_queue.map Task.task_id := by
  have hInv0 : SessionInv (initialState model ro cid) := by
    refine ⟨List.nodup_nil, fun c hc => ?_, fun hpr => ?_⟩
    · cases hc
    · cases hpr
  obtain ⟨h1, h2, h3⟩ := sessionInv_runOps _ ops hInv0 hok
  cases hc : (runOps (initialState model ro cid) ops).current_task_id with
  | none => rw [hc] at h3; cases h3 hproc
  | some tid => exact ⟨tid, rfl, h2 tid hc⟩

/-- Witness for the amended C1 on a concrete fresh-id trace. -/
theorem C1_at_most_one_active_witness :
    okOps (initialState none false (some "c")) [SessionOp.submit "w" "A" "t"] ∧
    (runOps (initialState none false (some "c"))
        [SessionOp.submit "w" "A" "t"]).is_processing = true ∧
    ∃ tid, (runOps (initialState none false (some "c"))
        [SessionOp.submit "w" "A" "t"]).current_task_id = some tid ∧
      tid ∉ (runOps (initialState none false (some "c"))
        [SessionOp.submit "w" "A" "t"]).task_queue.map Task.task_id := by
  have hok : okOps (initialState none false (some "c")) [SessionOp.submit "w" "A" "t"] :=
    ⟨fun _ => ⟨by decide, by decide⟩, trivial⟩
  exact ⟨hok, by decide, C1_at_most_one_active none false (some "c") _ hok (by decide)⟩

/-!
Claim C4 — no discarding of in-flight results after cancellation.
-/

/-- Counterexample to claim C4 as stated: with a single research-only
task whose active-task cancellation interleaves with the in-flight
research call, the pipeline still emits the research result event (and
even a task_complete) after the task_cancelled event, because the loop
performs no check that the task is still active. -/
theorem C4_counterexample :
    (process_next_task ⟨fun _ _ => Except.ok "r",
        fun tid ph => tid == "T1" && ph == "research", "c", 5⟩
      ⟨{ initialState none true (some "c") with
         task_queue := [⟨"do stuff", "T1", "u", "pending"⟩] }, {}, []⟩).events
      = [Event.phase_started "research" "T1", Event.task_cancelled "T1",
         Event.research_complete "r" "T1",
         Event.task_complete (some "Research-only mode") "T1"] ∧
    ((process_next_task ⟨fun _ _ => Except.ok "r",
        fun tid ph => tid == "T1" && ph == "research", "c", 5⟩
      ⟨{ initialState none true (some "c") with
         task_queue := [⟨"do stuff", "T1", "u", "pending"⟩] }, {}, []⟩).events)[1]?
      = some (Event.task_cancelled "T1") ∧
    ((process_next_task ⟨fun _ _ => Except.ok "r",
        fun tid ph => tid == "T1" && ph == "research", "c", 5⟩
      ⟨{ initialState none true (some "c") with
         task_queue := [⟨"do stuff", "T1", "u", "pending"⟩] }, {}, []⟩).events)[2]?
      = some (Event.research_complete "r" "T1") := by
  decide

/-- Claim C4 (amended): the phase loop performs no active-task check, so
when the active task is cancelled while its research call is in flight,
the result event the collaborator eventually produces is still emitted
(followed by the rest of the pipeline) after task_cancelled, instead of
being discarded. -/
theorem C4_inflight_result_not_discarded (coll : Collab) (cid : String) (now : Nat)
    (t : Task) (res : String) (st : ConnectionState) (store : MemorySaver)
    (ev : List Event)
    (hro : st.research_only = true) (hq : st.task_queue = [t])
    (hp : st.is_processing = false)
    (hok : coll t.task_id "research" = Except.ok res) :
    (process_next_task ⟨coll, fun tid ph => tid == t.task_id && ph == "research", cid, now⟩
        ⟨st, store, ev⟩).events =
      ev ++ [Event.phase_started "research" t.task_id, Event.task_cancelled t.task_id,
             Event.research_complete res t.task_id,
             Event.task_complete (some "Research-only mode") t.task_id] := by
  obtain ⟨mo, ro, cid0, cph, cur, q, comp, pr, md⟩ := st
  simp only at hro hq hp
  subst hro; subst hq; subst hp
  simp [process_next_task, process_next_task_go, ConnectionState.pop_next_task,
    awaitPoint, cancelActiveBranch, ConnectionState.has_pending_tasks, hok,
    ConnectionState.mark_task_complete, MemorySaver.store_task,
    MemorySaver.log_task_message, MemorySaver.mark_task_complete]

/-- Witness for the amended C4 at a concrete session. -/
theorem C4_inflight_result_not_discarded_witness :
    (process_next_task ⟨fun _ _ => Except.ok "res",
        fun tid ph => tid == "T9" && ph == "research", "c", 6⟩
      ⟨{ initialState none true (some "c") with
         task_queue := [⟨"work", "T9", "u", "pending"⟩] }, {}, []⟩).events
      = [Event.phase_started "research" "T9", Event.task_cancelled "T9",
         Event.research_complete "res" "T9",
         Event.task_complete (some "Research-only mode") "T9"] := by
  have h := C4_inflight_result_not_discarded (fun _ _ => Except.ok "res") "c" 6
    ⟨"work", "T9", "u", "pending"⟩ "res"
    { initialState none true (some "c") with task_queue := [⟨"work", "T9", "u", "pending"⟩] }
    {} [] rfl rfl rfl rfl
  simpa using h

/-!
Claim C9 — handling of unknown task ids.
-/

theorem map_eq_self_of_eq {α : Type _} (l : List α) (f : α → α)
    (h : ∀ a ∈ l, f a = a) : l.map f = l := by
  induction l with
  | nil => rfl
  | cons a l ih =>
    simp [h a (List.mem_cons_self a l), ih (fun x hx => h x (List.mem_cons_of_mem a hx))]

theorem mark_task_complete_no_row (m : MemorySaver) (tid th : String)
    (md : Option Meta) (n : Nat)
    (h : m.get_task tid th = none) :
    m.mark_task_complete tid th md n = m := by
  have hall : ∀ r ∈ m.task_history, taskKeyEq th tid r = false := by
    intro r hr
    have hfind := List.find?_eq_none.mp h r hr
    exact Bool.eq_false_iff.mpr hfind
  show { m with task_history := _ } = m
  rw [map_eq_self_of_eq _ _ (fun r hr => if_neg (by simp [hall r hr]))]

/-- Counterexample to claim C9 as stated: a mark_complete message whose
task id is unknown everywhere is not answered with an error; the handler
replies task_marked_complete and appends a complete log row for the
ghost id. -/
theorem C9_counterexample :
    (handle_mark_complete ⟨fun _ _ => Except.ok "r", noCancel, "c", 3⟩ (some "ghost")
        ⟨initialState none false (some "c"), {}, []⟩).events
      = [Event.task_marked_complete "ghost"] ∧
    (handle_mark_complete ⟨fun _ _ => Except.ok "r", noCancel, "c", 3⟩ (some "ghost")
        ⟨initialState none false (some "c"), {}, []⟩).store.task_logs
      = [⟨"c", "ghost", "Task marked as complete by user", "complete", 3⟩] := by
  decide

/-- Claim C9 (amended): for a task id that is not the active task, not
queued and absent from the store, get_task_status and cancel reply with
an error and mutate nothing, but mark_complete performs no validation:
on an idle empty-queue session it replies task_marked_complete and
appends a complete log row, leaving the connection state and the task
history unchanged. -/
theorem C9_unknown_task_id (ctx : SessCtx) (s : Sess) (tid : String)
    (htid : ¬ tid = "")
    (hcur : ¬ some tid = s.state.current_task_id)
    (hq : tid ∉ s.state.task_queue.map Task.task_id)
    (hrow : s.store.get_task tid ctx.client_id = none) :
    handle_get_task_status ctx (some tid) s =
      { s with events := s.events ++ [Event.error ("Task " ++ tid ++ " not found") none] } ∧
    handle_cancel ctx (some tid) s =
      { s with events := s.events ++ [Event.error ("Task " ++ tid ++ " not found") none] } ∧
    (s.state.task_queue = [] →
      handle_mark_complete ctx (some tid) s =
        ⟨s.state,
         { s.store with task_logs := s.store.task_logs ++
             [⟨ctx.client_id, tid, "Task marked as complete by user", "complete", ctx.now⟩] },
         s.events ++ [Event.task_marked_complete tid]⟩) := by
  have hany : s.state.task_queue.any (fun t => t.task_id == tid) = false := by
    rw [List.any_eq_false]
    intro t ht
    simp only [beq_iff_eq]
    intro he
    exact hq (he ▸ List.mem_map_of_mem Task.task_id ht)
  refine ⟨?_, ?_, fun hqe => ?_⟩
  · simp [handle_get_task_status, htid, hrow]
  · simp [handle_cancel, htid, hcur, cancelQueuedBranch, hany]
  · simp [handle_mark_complete, htid, ConnectionState.mark_task_complete, hcur,
      mark_task_complete_no_row s.store tid ctx.client_id none ctx.now hrow,
      MemorySaver.log_task_message, ConnectionState.has_pending_tasks, hqe]

/-- Witness for the amended C9 at a concrete idle session. -/
theorem C9_unknown_task_id_witness :
    (handle_get_task_status ⟨fun _ _ => Except.ok "r", noCancel, "c", 3⟩ (some "ghost")
        ⟨initialState none false (some "c"), {}, []⟩).events
      = [Event.error "Task ghost not found" none] ∧
    (handle_cancel ⟨fun _ _ => Except.ok "r", noCancel, "c", 3⟩ (some "ghost")
        ⟨initialState none false (some "c"), {}, []⟩).events
      = [Event.error "Task ghost not found" none] ∧
    (handle_mark_complete ⟨fun _ _ => Except.ok "r", noCancel, "c", 3⟩ (some "ghost")
        ⟨initialState none false (some "c"), {}, []⟩).state
      = initialState none false (some "c") := by
  have h := C9_unknown_task_id ⟨fun _ _ => Except.ok "r", noCancel, "c", 3⟩
    ⟨initialState none false (some "c"), {}, []⟩ "ghost"
    (by decide) (by decide) (by decide) (by decide)
  refine ⟨?_, ?_, ?_⟩
  · rw [h.1]; rfl
  · rw [h.2.1]; rfl
  · rw [h.2.2 rfl]

/-!
Claims C3 and C7 — pipeline runs without interleaved cancellation.
The lemmas below describe one full `process_next_task` run with the
cancellation oracle `noCancel`.
-/

theorem RunDelta_refl (q : List Task) (s : Sess) : RunDelta q s s :=
  ⟨⟨[], by simp⟩, ⟨[], by simp⟩, ⟨[], by simp⟩, fun _ _ => rfl⟩

theorem RunDelta_trans_sub (q1 q2 : List Task) (s s1 s2 : Sess)
    (h1 : RunDelta q1 s s1) (h2 : RunDelta q2 s1 s2)
    (hsub : ∀ u ∈ q2, u ∈ q1) : RunDelta q1 s s2 := by
  obtain ⟨⟨d1, he1, hd1⟩, ⟨l1, hl1⟩, ⟨c1, hc1⟩, hh1⟩ := h1
  obtain ⟨⟨d2, he2, hd2⟩, ⟨l2, hl2⟩, ⟨c2, hc2⟩, hh2⟩ := h2
  refine ⟨⟨d1 ++ d2, by rw [he2, he1, List.append_assoc], ?_⟩,
    ⟨l1 ++ l2, by rw [hl2, hl1, List.append_assoc]⟩,
    ⟨c1 ++ c2, by rw [hc2, hc1, List.append_assoc]⟩, fun x hx => ?_⟩
  · intro e he
    rcases List.mem_append.mp he with h | h
    · exact hd1 e h
    · obtain ⟨u, hu, hid⟩ := hd2 e h
      exact ⟨u, hsub u hu, hid⟩
  · rw [hh2 x (fun u hu => hx u (hsub u hu)), hh1 x hx]

theorem store_task_history_logs (m : MemorySaver) (tid content th status : String)
    (md : Option Meta) (n : Nat) :
    (m.store_task tid content th status md n).task_logs = m.task_logs := by
  unfold MemorySaver.store_task
  split <;> rfl

theorem mark_task_complete_logs (m : MemorySaver) (tid th : String)
    (md : Option Meta) (n : Nat) :
    (m.mark_task_complete tid th md n).task_logs = m.task_logs := rfl

theorem log_task_message_history (m : MemorySaver) (tid msg mt th : String) (n : Nat) :
    (m.log_task_message tid msg mt th n).task_history = m.task_history := rfl

theorem log_task_message_logs (m : MemorySaver) (tid msg mt th : String) (n : Nat) :
    (m.log_task_message tid msg mt th n).task_logs =
      m.task_logs ++ [⟨th, tid, msg, mt, n⟩] := rfl

theorem store_task_filter_ne (m : MemorySaver) (tid content th status : String)
    (md : Option Meta) (n : Nat) (x : String) (hx : ¬ tid = x) :
    (m.store_task tid content th status md n).task_history.filter (fun r => r.task_id == x)
      = m.task_history.filter (fun r => r.task_id == x) := by
  unfold MemorySaver.store_task
  split
  · show (m.task_history.map _).filter _ = _
    apply filter_map_eq_filter
    intro r _
    cases hk : taskKeyEq th tid r with
    | false => simp [hk]
    | true =>
      have hrid : r.task_id = tid := by
        simp only [taskKeyEq, Bool.and_eq_true, beq_iff_eq] at hk
        exact hk.2
      constructor
      · simp [hk, hrid]
      · intro hp
        simp only [beq_iff_eq] at hp
        exact absurd (hrid ▸ hp : tid = x) hx
  · show (m.task_history ++ [_]).filter _ = _
    rw [List.filter_append]
    have : ([(⟨th, tid, content, status, n, none, md⟩ : TaskRow)].filter
        (fun r => r.task_id == x)) = [] := by
      simp [hx]
    rw [this, List.append_nil]

theorem mark_task_complete_filter_ne (m : MemorySaver) (tid th : String)
    (md : Option Meta) (n : Nat) (x : String) (hx : ¬ tid = x) :
    (m.mark_task_complete tid th md n).task_history.filter (fun r => r.task_id == x)
      = m.task_history.filter (fun r => r.task_id == x) := by
  show (m.task_history.map _).filter _ = _
  apply filter_map_eq_filter
  intro r _
  cases hk : taskKeyEq th tid r with
  | false => simp [hk]
  | true =>
    have hrid : r.task_id = tid := by
      simp only [taskKeyEq, Bool.and_eq_true, beq_iff_eq] at hk
      exact hk.2
    constructor
    · cases md <;> simp [hk, hrid]
    · intro hp
      simp only [beq_iff_eq] at hp
      exact absurd (hrid ▸ hp : tid = x) hx

theorem awaitPoint_noCancel (coll : Collab) (cid : String) (now : Nat)
    (tid ph : String) (s : Sess) (pnt : Sess → Sess) :
    awaitPoint ⟨coll, noCancel, cid, now⟩ tid ph s pnt = s := by
  simp [awaitPoint, noCancel]

theorem finish_spec (t : Task) (rest : List Task) (s : Sess)
    (st1 : ConnectionState) (store1 : MemorySaver) (ev1 : List Event) (pnt : Sess → Sess)
    (hstep : RunDelta (t :: rest) s ⟨st1, store1, ev1⟩)
    (hq : st1.task_queue = rest)
    (hp : st1.is_processing = false)
    (hpnt : RunDelta rest ⟨st1, store1, ev1⟩ (pnt ⟨st1, store1, ev1⟩) ∧
            ((pnt ⟨st1, store1, ev1⟩).state.task_queue = [] ∧
             (pnt ⟨st1, store1, ev1⟩).state.is_processing = false)) :
    RunDelta (t :: rest) s
        (if st1.has_pending_tasks = true then pnt ⟨st1, store1, ev1⟩ else ⟨st1, store1, ev1⟩) ∧
    (if st1.has_pending_tasks = true then pnt ⟨st1, store1, ev1⟩
       else ⟨st1, store1, ev1⟩).state.task_queue = [] ∧
    (if st1.has_pending_tasks = true then pnt ⟨st1, store1, ev1⟩
       else ⟨st1, store1, ev1⟩).state.is_processing = false ∧
    (∀ e ∈ ev1, e ∈ (if st1.has_pending_tasks = true then pnt ⟨st1, store1, ev1⟩
       else ⟨st1, store1, ev1⟩).events) := by
  by_cases hpend : st1.has_pending_tasks = true
  · rw [if_pos hpend]
    refine ⟨RunDelta_trans_sub _ rest _ _ _ hstep hpnt.1
        (fun u hu => List.mem_cons_of_mem t hu), hpnt.2.1, hpnt.2.2, fun e he => ?_⟩
    obtain ⟨⟨d2, he2, _⟩, _, _, _⟩ := hpnt.1
    rw [he2]
    exact List.mem_append_left d2 he
  · rw [if_neg hpend]
    have hrest : rest = [] := by
      simp only [ConnectionState.has_pending_tasks, hq, decide_eq_true_eq,
        Nat.pos_iff_ne_zero, ne_eq, Decidable.not_not] at hpend
      exact List.eq_nil_of_length_eq_zero hpend
    exact ⟨hstep, by rw [hq, hrest], hp, fun e he => he⟩


theorem events_tid_head (t : Task) (rest : List Task) (d : List Event)
    (h : ∀ e ∈ d, eventTaskId e = some t.task_id) :
    ∀ e ∈ d, ∃ u ∈ t :: rest, eventTaskId e = some u.task_id :=
  fun e he => ⟨t, List.mem_cons_self t rest, h e he⟩

theorem mark_task_complete_self (st : ConnectionState) (tid : String)
    (h : st.current_task_id = some tid) :
    st.mark_task_complete tid =
      { st with current_task_id := none, is_processing := false,
                completed_tasks := st.completed_tasks ++ [tid] } := by
  simp [ConnectionState.mark_task_complete, h]

theorem branch_close (coll : Collab) (cid : String) (now : Nat) (fuel : Nat)
    (t : Task) (rest : List Task) (s : Sess)
    (st1 : ConnectionState) (store1 : MemorySaver) (ev1 : List Event)
    (hstep : RunDelta (t :: rest) s ⟨st1, store1, ev1⟩)
    (hq1 : st1.task_queue = rest)
    (hp1 : st1.is_processing = false)
    (hhead : Event.phase_started "research" t.task_id ∈ ev1)
    (hfuel : rest.length ≤ fuel)
    (ih : ∀ s2 : Sess, s2.state.task_queue.length ≤ fuel →
      RunDelta s2.state.task_queue s2 (process_next_task_go ⟨coll, noCancel, cid, now⟩ fuel s2) ∧
      (s2.state.is_processing = false →
        (process_next_task_go ⟨coll, noCancel, cid, now⟩ fuel s2).state.task_queue = [] ∧
        (process_next_task_go ⟨coll, noCancel, cid, now⟩ fuel s2).state.is_processing = false) ∧
      (∀ r rest2, s2.state.is_processing = false → s2.state.task_queue = r :: rest2 →
        Event.phase_started "research" r.task_id ∈
          (process_next_task_go ⟨coll, noCancel, cid, now⟩ fuel s2).events)) :
    RunDelta (t :: rest) s
        (if st1.has_pending_tasks = true
         then process_next_task_go ⟨coll, noCancel, cid, now⟩ fuel ⟨st1, store1, ev1⟩
         else ⟨st1, store1, ev1⟩) ∧
    (s.state.is_processing = false →
      (if st1.has_pending_tasks = true
       then process_next_task_go ⟨coll, noCancel, cid, now⟩ fuel ⟨st1, store1, ev1⟩
       else ⟨st1, store1, ev1⟩).state.task_queue = [] ∧
      (if st1.has_pending_tasks = true
       then process_next_task_go ⟨coll, noCancel, cid, now⟩ fuel ⟨st1, store1, ev1⟩
       else ⟨st1, store1, ev1⟩).state.is_processing = false) ∧
    (∀ r rest2, s.state.is_processing = false → t :: rest = r :: rest2 →
      Event.phase_started "research" r.task_id ∈
        (if st1.has_pending_tasks = true
         then process_next_task_go ⟨coll, noCancel, cid, now⟩ fuel ⟨st1, store1, ev1⟩
         else ⟨st1, store1, ev1⟩).events) := by
  have hihs := ih ⟨st1, store1, ev1⟩ (by simpa [hq1] using hfuel)
  have h1 : RunDelta st1.task_queue ⟨st1, store1, ev1⟩
      (process_next_task_go ⟨coll, noCancel, cid, now⟩ fuel ⟨st1, store1, ev1⟩) := hihs.1
  rw [hq1] at h1
  have hdrain := hihs.2.1 hp1
  have hfin := finish_spec t rest s st1 store1 ev1
    (process_next_task_go ⟨coll, noCancel, cid, now⟩ fuel) hstep hq1 hp1 ⟨h1, hdrain⟩
  refine ⟨hfin.1, fun _ => ⟨hfin.2.1, hfin.2.2.1⟩, fun r rest2 _ hr => ?_⟩
  injection hr with hr1 hr2
  subst hr1
  exact hfin.2.2.2 _ hhead

theorem go_noCancel_spec (coll : Collab) (cid : String) (now : Nat) :
    ∀ (fuel : Nat) (s : Sess), s.state.task_queue.length ≤ fuel →
      RunDelta s.state.task_queue s
          (process_next_task_go ⟨coll, noCancel, cid, now⟩ fuel s) ∧
      (s.state.is_processing = false →
        (process_next_task_go ⟨coll, noCancel, cid, now⟩ fuel s).state.task_queue = [] ∧
        (process_next_task_go ⟨coll, noCancel, cid, now⟩ fuel s).state.is_processing = false) ∧
      (∀ r rest2, s.state.is_processing = false → s.state.task_queue = r :: rest2 →
        Event.phase_started "research" r.task_id ∈
          (process_next_task_go ⟨coll, noCancel, cid, now⟩ fuel s).events) := by
  intro fuel
  induction fuel with
  | zero =>
    intro s hlen
    have hq : s.state.task_queue = [] := List.eq_nil_of_length_eq_zero (Nat.le_zero.mp hlen)
    refine ⟨RunDelta_refl _ _, fun hp => ⟨hq, hp⟩, fun r rest2 hp hr => ?_⟩
    rw [hq] at hr; cases hr
  | succ fuel ih =>
    intro s hlen
    by_cases hp : s.state.is_processing = true
    · have hgo : process_next_task_go ⟨coll, noCancel, cid, now⟩ (fuel+1) s = s := by
        simp [process_next_task_go, hp]
      rw [hgo]
      refine ⟨RunDelta_refl _ _, fun hpf => ?_, fun r rest2 hpf hr => ?_⟩
      · rw [hpf] at hp; cases hp
      · rw [hpf] at hp; cases hp
    · have hp' : s.state.is_processing = false := by
        cases hb : s.state.is_processing
        · rfl
        · exact absurd hb hp
      cases hq : s.state.task_queue with
      | nil =>
        have hgo : process_next_task_go ⟨coll, noCancel, cid, now⟩ (fuel+1) s = s := by
          simp [process_next_task_go, hp', ConnectionState.pop_next_task, hq]
        rw [hgo, hq]
        refine ⟨RunDelta_refl _ _, fun _ => ⟨rfl, hp'⟩, fun r rest2 _ hr => ?_⟩
        cases hr
      | cons t rest =>
        have hfuel' : rest.length ≤ fuel := by
          rw [hq] at hlen
          simpa using hlen
        simp only [process_next_task_go, if_neg hp, ConnectionState.pop_next_task, hq,
          awaitPoint_noCancel]
        cases hres : coll t.task_id "research" with
        | error e =>
          simp only [errorBranch, mark_task_complete_self]
          refine branch_close coll cid now fuel t rest s _ _ _ ?_ rfl rfl ?_ hfuel' ih
          · refine ⟨⟨[Event.phase_started "research" t.task_id,
                Event.error ("Error during task execution: " ++ e) (some t.task_id)], ?_, ?_⟩,
              ⟨[⟨cid, t.task_id, "Starting research phase", "phase_change", now⟩,
                ⟨cid, t.task_id, "Error during task execution: " ++ e, "error", now⟩], ?_⟩,
              ⟨[t.task_id], ?_⟩, fun x hx => ?_⟩
            · simp
            · refine events_tid_head t rest _ ?_
              intro e' he'
              rcases List.mem_cons.mp he' with rfl | he'
              · rfl
              rcases List.mem_cons.mp he' with rfl | he'
              · rfl
              cases he'
            · simp [store_task_history_logs, log_task_message_logs]
            · simp
            · have hxt : ¬ t.task_id = x := hx t (List.mem_cons_self t rest)
              simp [log_task_message_history, store_task_filter_ne _ _ _ _ _ _ _ _ hxt]
          · simp
        | ok res =>
          by_cases hro : s.state.research_only = true
          · simp only [hro, mark_task_complete_self]
            refine branch_close coll cid now fuel t rest s _ _ _ ?_ rfl rfl ?_ hfuel' ih
            · refine ⟨⟨[Event.phase_started "research" t.task_id,
                  Event.research_complete res t.task_id,
                  Event.task_complete (some "Research-only mode") t.task_id], ?_, ?_⟩,
                ⟨[⟨cid, t.task_id, "Starting research phase", "phase_change", now⟩,
                  ⟨cid, t.task_id, "Research phase completed", "phase_complete", now⟩,
                  ⟨cid, t.task_id, "Task completed in research-only mode", "complete", now⟩], ?_⟩,
                ⟨[t.task_id], ?_⟩, fun x hx => ?_⟩
              · simp
              · refine events_tid_head t rest _ ?_
                intro e' he'
                fin_cases he' <;> rfl
              · simp [store_task_history_logs, log_task_message_logs, mark_task_complete_logs]
              · simp
              · have hxt : ¬ t.task_id = x := hx t (List.mem_cons_self t rest)
                simp [log_task_message_history, store_task_filter_ne _ _ _ _ _ _ _ _ hxt,
                  mark_task_complete_filter_ne _ _ _ _ _ _ hxt]
            · simp
          · have hro' : s.state.research_only = false := by
              cases hb : s.state.research_only
              · rfl
              · exact absurd hb hro
            simp only [hro', Bool.false_eq_true, if_false]
            cases hpl : coll t.task_id "planning" with
            | error e2 =>
              simp only [errorBranch, mark_task_complete_self]
              refine branch_close coll cid now fuel t rest s _ _ _ ?_ rfl rfl ?_ hfuel' ih
              · refine ⟨⟨[Event.phase_started "research" t.task_id,
                    Event.research_complete res t.task_id,
                    Event.phase_started "planning" t.task_id,
                    Event.error ("Error during task execution: " ++ e2) (some t.task_id)], ?_, ?_⟩,
                  ⟨[⟨cid, t.task_id, "Starting research phase", "phase_change", now⟩,
                    ⟨cid, t.task_id, "Research phase completed", "phase_complete", now⟩,
                    ⟨cid, t.task_id, "Starting planning phase", "phase_change", now⟩,
                    ⟨cid, t.task_id, "Error during task execution: " ++ e2, "error", now⟩], ?_⟩,
                  ⟨[t.task_id], ?_⟩, fun x hx => ?_⟩
                · simp
                · refine events_tid_head t rest _ ?_
                  intro e' he'
                  fin_cases he' <;> rfl
                · simp [store_task_history_logs, log_task_message_logs]
                · simp
                · have hxt : ¬ t.task_id = x := hx t (List.mem_cons_self t rest)
                  simp [log_task_message_history, store_task_filter_ne _ _ _ _ _ _ _ _ hxt]
              · simp
            | ok pres =>
              cases him : coll t.task_id "implementation" with
              | error e3 =>
                simp only [errorBranch, mark_task_complete_self]
                refine branch_close coll cid now fuel t rest s _ _ _ ?_ rfl rfl ?_ hfuel' ih
                · refine ⟨⟨[Event.phase_started "research" t.task_id,
                      Event.research_complete res t.task_id,
                      Event.phase_started "planning" t.task_id,
                      Event.planning_complete pres t.task_id,
                      Event.phase_started "implementation" t.task_id,
                      Event.error ("Error during task execution: " ++ e3) (some t.task_id)], ?_, ?_⟩,
                    ⟨[⟨cid, t.task_id, "Starting research phase", "phase_change", now⟩,
                      ⟨cid, t.task_id, "Research phase completed", "phase_complete", now⟩,
                      ⟨cid, t.task_id, "Starting planning phase", "phase_change", now⟩,
                      ⟨cid, t.task_id, "Planning phase completed", "phase_complete", now⟩,
                      ⟨cid, t.task_id, "Starting implementation phase", "phase_change", now⟩,
                      ⟨cid, t.task_id, "Error during task execution: " ++ e3, "error", now⟩], ?_⟩,
                    ⟨[t.task_id], ?_⟩, fun x hx => ?_⟩
                  · simp
                  · refine events_tid_head t rest _ ?_
                    intro e' he'
                    fin_cases he' <;> rfl
                  · simp [store_task_history_logs, log_task_message_logs]
                  · simp
                  · have hxt : ¬ t.task_id = x := hx t (List.mem_cons_self t rest)
                    simp [log_task_message_history, store_task_filter_ne _ _ _ _ _ _ _ _ hxt]
                · simp
              | ok ires =>
                simp only [mark_task_complete_self]
                refine branch_close coll cid now fuel t rest s _ _ _ ?_ rfl rfl ?_ hfuel' ih
                · refine ⟨⟨[Event.phase_started "research" t.task_id,
                      Event.research_complete res t.task_id,
                      Event.phase_started "planning" t.task_id,
                      Event.planning_complete pres t.task_id,
                      Event.phase_started "implementation" t.task_id,
                      Event.implementation_complete ires t.task_id,
                      Event.task_complete none t.task_id], ?_, ?_⟩,
                    ⟨[⟨cid, t.task_id, "Starting research phase", "phase_change", now⟩,
                      ⟨cid, t.task_id, "Research phase completed", "phase_complete", now⟩,
                      ⟨cid, t.task_id, "Starting planning phase", "phase_change", now⟩,
                      ⟨cid, t.task_id, "Planning phase completed", "phase_complete", now⟩,
                      ⟨cid, t.task_id, "Starting implementation phase", "phase_change", now⟩,
                      ⟨cid, t.task_id, "Implementation phase completed", "phase_complete", now⟩,
                      ⟨cid, t.task_id, "Task completed successfully", "complete", now⟩], ?_⟩,
                    ⟨[t.task_id], ?_⟩, fun x hx => ?_⟩
                  · simp
                  · refine events_tid_head t rest _ ?_
                    intro e' he'
                    fin_cases he' <;> rfl
                  · simp [store_task_history_logs, log_task_message_logs, mark_task_complete_logs]
                  · simp
                  · have hxt : ¬ t.task_id = x := hx t (List.mem_cons_self t rest)
                    simp [log_task_message_history, store_task_filter_ne _ _ _ _ _ _ _ _ hxt,
                      mark_task_complete_filter_ne _ _ _ _ _ _ hxt]
                · simp

theorem tail_run_spec (coll : Collab) (cid : String) (now : Nat) (fuel : Nat)
    (rest : List Task) (st1 : ConnectionState) (store1 : MemorySaver) (ev1 : List Event)
    (hq1 : st1.task_queue = rest) (hp1 : st1.is_processing = false)
    (hfuel : rest.length ≤ fuel) :
    RunDelta rest ⟨st1, store1, ev1⟩
        (if st1.has_pending_tasks = true
         then process_next_task_go ⟨coll, noCancel, cid, now⟩ fuel ⟨st1, store1, ev1⟩
         else ⟨st1, store1, ev1⟩) ∧
    (if st1.has_pending_tasks = true
     then process_next_task_go ⟨coll, noCancel, cid, now⟩ fuel ⟨st1, store1, ev1⟩
     else ⟨st1, store1, ev1⟩).state.task_queue = [] ∧
    (if st1.has_pending_tasks = true
     then process_next_task_go ⟨coll, noCancel, cid, now⟩ fuel ⟨st1, store1, ev1⟩
     else ⟨st1, store1, ev1⟩).state.is_processing = false ∧
    (∀ r rest2, rest = r :: rest2 →
      Event.phase_started "research" r.task_id ∈
        (if st1.has_pending_tasks = true
         then process_next_task_go ⟨coll, noCancel, cid, now⟩ fuel ⟨st1, store1, ev1⟩
         else ⟨st1, store1, ev1⟩).events) := by
  by_cases hpend : st1.has_pending_tasks = true
  · rw [if_pos hpend]
    have hgs := go_noCancel_spec coll cid now fuel ⟨st1, store1, ev1⟩ (by simpa [hq1] using hfuel)
    have h1 : RunDelta st1.task_queue ⟨st1, store1, ev1⟩
        (process_next_task_go ⟨coll, noCancel, cid, now⟩ fuel ⟨st1, store1, ev1⟩) := hgs.1
    rw [hq1] at h1
    have hdr := hgs.2.1 hp1
    exact ⟨h1, hdr.1, hdr.2, fun r rest2 hr => hgs.2.2 r rest2 hp1 (hq1.trans hr)⟩
  · rw [if_neg hpend]
    have hrest : rest = [] := by
      simp only [ConnectionState.has_pending_tasks, hq1, decide_eq_true_eq,
        Nat.pos_iff_ne_zero, ne_eq, Decidable.not_not] at hpend
      exact List.eq_nil_of_length_eq_zero hpend
    refine ⟨RunDelta_refl rest _, by rw [hq1, hrest], hp1, fun r rest2 hr => ?_⟩
    rw [hrest] at hr; cases hr

theorem store_task_fresh (store : MemorySaver) (tid c cid stv : String) (n : Nat)
    (hrow : store.task_history.filter (fun r => r.task_id == tid) = []) :
    (store.store_task tid c cid stv none n).task_history
      = store.task_history ++ [⟨cid, tid, c, stv, n, none, none⟩] := by
  have hany : store.task_history.any (taskKeyEq cid tid) = false := by
    rw [List.any_eq_false]
    intro r hr hk
    have hrid : (r.task_id == tid) = true := by
      simp only [taskKeyEq, Bool.and_eq_true] at hk
      exact hk.2
    have : r ∈ store.task_history.filter (fun r => r.task_id == tid) :=
      List.mem_filter.mpr ⟨hr, hrid⟩
    rw [hrow] at this
    cases this
  unfold MemorySaver.store_task
  split
  · simp_all
  · rfl

theorem store_task_update_filter (store : MemorySaver) (tid c2 cid stv2 : String)
    (md2 : Option Meta) (n2 : Nat) (row : TaskRow)
    (hpre : store.task_history.filter (fun r => r.task_id == tid) = [row])
    (hkey : taskKeyEq cid tid row = true) :
    (store.store_task tid c2 cid stv2 md2 n2).task_history.filter (fun r => r.task_id == tid)
      = [{ row with status := stv2, metadata := md2 }] := by
  have hrowmem : row ∈ store.task_history := by
    have : row ∈ store.task_history.filter (fun r => r.task_id == tid) := by
      rw [hpre]; exact List.mem_cons_self row []
    exact (List.mem_filter.mp this).1
  have hany : store.task_history.any (taskKeyEq cid tid) = true := by
    rw [List.any_eq_true]
    exact ⟨row, hrowmem, hkey⟩
  unfold MemorySaver.store_task
  split
  · show ((store.task_history.map _).filter _) = _
    rw [filter_map_of_pres _ _ _ (by
      intro r
      by_cases hk : taskKeyEq cid tid r = true
      · simp [hk]
      · simp [Bool.eq_false_iff.mpr hk])]
    rw [hpre]
    simp [hkey]
  · simp_all

theorem mark_task_filter_row (store : MemorySaver) (tid cid : String)
    (md0 : Meta) (n : Nat) (row : TaskRow)
    (hpre : store.task_history.filter (fun r => r.task_id == tid) = [row])
    (hkey : taskKeyEq cid tid row = true) :
    (store.mark_task_complete tid cid (some md0) n).task_history.filter
        (fun r => r.task_id == tid)
      = [{ row with status := "completed", completed_at := some n, metadata := some md0 }] := by
  show ((store.task_history.map _).filter _) = _
  rw [filter_map_of_pres _ _ _ (by
    intro r
    by_cases hk : taskKeyEq cid tid r = true
    · simp [hk]
    · simp [Bool.eq_false_iff.mpr hk])]
  rw [hpre]
  simp [hkey]

theorem c3_close (coll : Collab) (cid : String) (now : Nat) (fuel : Nat) (rest : List Task)
    (tid : String) (st1 : ConnectionState) (store1 : MemorySaver) (ev1 : List Event)
    (errLog : LogRow) (errRow : TaskRow) (errEv : Event)
    (hq1 : st1.task_queue = rest) (hp1 : st1.is_processing = false)
    (hfuel : rest.length ≤ fuel)
    (hfr : ∀ u ∈ rest, ¬ u.task_id = tid)
    (hlog : errLog ∈ store1.task_logs)
    (hhist : store1.task_history.filter (fun r => r.task_id == tid) = [errRow])
    (hev : errEv ∈ ev1) :
    errLog ∈ (if st1.has_pending_tasks = true
        then process_next_task_go ⟨coll, noCancel, cid, now⟩ fuel ⟨st1, store1, ev1⟩
        else ⟨st1, store1, ev1⟩).store.task_logs ∧
    (if st1.has_pending_tasks = true
        then process_next_task_go ⟨coll, noCancel, cid, now⟩ fuel ⟨st1, store1, ev1⟩
        else ⟨st1, store1, ev1⟩).store.task_history.filter (fun r => r.task_id == tid)
      = [errRow] ∧
    errEv ∈ (if st1.has_pending_tasks = true
        then process_next_task_go ⟨coll, noCancel, cid, now⟩ fuel ⟨st1, store1, ev1⟩
        else ⟨st1, store1, ev1⟩).events ∧
    (if st1.has_pending_tasks = true
        then process_next_task_go ⟨coll, noCancel, cid, now⟩ fuel ⟨st1, store1, ev1⟩
        else ⟨st1, store1, ev1⟩).state.is_processing = false ∧
    (if st1.has_pending_tasks = true
        then process_next_task_go ⟨coll, noCancel, cid, now⟩ fuel ⟨st1, store1, ev1⟩
        else ⟨st1, store1, ev1⟩).state.task_queue = [] ∧
    (∀ r rest2, rest = r :: rest2 →
      Event.phase_started "research" r.task_id ∈
        (if st1.has_pending_tasks = true
         then process_next_task_go ⟨coll, noCancel, cid, now⟩ fuel ⟨st1, store1, ev1⟩
         else ⟨st1, store1, ev1⟩).events) := by
  obtain ⟨⟨⟨dEv, hEv, _⟩, ⟨dLog, hLog⟩, _, hHist⟩, hQ, hP, hHead⟩ :=
    tail_run_spec coll cid now fuel rest st1 store1 ev1 hq1 hp1 hfuel
  refine ⟨?_, ?_, ?_, hP, hQ, hHead⟩
  · rw [hLog]
    exact List.mem_append_left _ hlog
  · rw [hHist tid hfr, hhist]
  · rw [hEv]
    exact List.mem_append_left _ hev

/-- Claim C3 (amended): when the first collaborator failure of a task
happens at phase ph with message msg, the pipeline appends an error log
entry carrying the exception message (the entry does not name the
failing phase, which is recorded only in the stored metadata, see the
counterexample), persists status error with the message and phase in
metadata while keeping the task content, emits an error event with the
task id, frees the slot, drains the rest of the queue (starting the next
task), and never propagates the exception. -/
theorem C3_phase_error_isolation (coll : Collab) (cid : String) (now : Nat)
    (t : Task) (rest : List Task) (st : ConnectionState) (store : MemorySaver)
    (ph msg : String)
    (hp : st.is_processing = false) (hq : st.task_queue = t :: rest)
    (hfr : ∀ u ∈ rest, ¬ u.task_id = t.task_id)
    (hrow : store.task_history.filter (fun r => r.task_id == t.task_id) = [])
    (hfail : firstFailure coll t.task_id st.research_only = some (ph, msg)) :
    (⟨cid, t.task_id, "Error during task execution: " ++ msg, "error", now⟩ : LogRow)
        ∈ (process_next_task ⟨coll, noCancel, cid, now⟩ ⟨st, store, []⟩).store.task_logs ∧
    (process_next_task ⟨coll, noCancel, cid, now⟩ ⟨st, store, []⟩).store.task_history.filter
        (fun r => r.task_id == t.task_id) =
      [⟨cid, t.task_id, t.content, "error", now, none,
        some [("error", JVal.s msg), ("phase", JVal.s ph)]⟩] ∧
    Event.error ("Error during task execution: " ++ msg) (some t.task_id)
        ∈ (process_next_task ⟨coll, noCancel, cid, now⟩ ⟨st, store, []⟩).events ∧
    (process_next_task ⟨coll, noCancel, cid, now⟩ ⟨st, store, []⟩).state.is_processing = false ∧
    (process_next_task ⟨coll, noCancel, cid, now⟩ ⟨st, store, []⟩).state.task_queue = [] ∧
    (∀ r rest2, rest = r :: rest2 →
      Event.phase_started "research" r.task_id ∈
        (process_next_task ⟨coll, noCancel, cid, now⟩ ⟨st, store, []⟩).events) := by
  obtain ⟨mo, ro, cid0, cph, cur, q, comp, prc, md⟩ := st
  simp only at hp hq hfail
  subst hp; subst hq
  simp only [process_next_task, List.length_cons, process_next_task_go,
    ConnectionState.pop_next_task, awaitPoint_noCancel, List.cons_append, List.nil_append]
  cases hres : coll t.task_id "research" with
  | error e =>
    simp only [firstFailure, hres, Option.some.injEq, Prod.mk.injEq] at hfail
    obtain ⟨hph, hmsg⟩ := hfail
    subst hph; subst hmsg
    simp only [errorBranch, mark_task_complete_self, List.cons_append, List.nil_append]
    refine c3_close coll cid now rest.length rest t.task_id _ _ _ _ _ _ ?_ ?_ ?_ ?_ ?_ ?_ ?_
    · rfl
    · rfl
    · exact Nat.le_refl _
    · exact hfr
    · simp [store_task_history_logs, log_task_message_logs]
    · refine (store_task_update_filter _ _ _ _ _ _ _
          ⟨cid, t.task_id, t.content, "in_progress", now, none, none⟩ ?_ (by simp [taskKeyEq])).trans ?_
      · rw [log_task_message_history, log_task_message_history,
          store_task_fresh store t.task_id t.content cid "in_progress" now hrow,
          List.filter_append, hrow]
        simp
      · rfl
    · simp
  | ok res =>
    by_cases hro2 : ro = true
    · rw [firstFailure] at hfail
      rw [hres, hro2] at hfail
      simp at hfail
    · have hro3 : ro = false := by
        cases hb : ro
        · rfl
        · exact absurd hb hro2
      subst hro3
      simp only [Bool.false_eq_true, if_false]
      cases hpl : coll t.task_id "planning" with
      | error e2 =>
        rw [firstFailure] at hfail
        rw [hres] at hfail
        simp only [Bool.false_eq_true, if_false, hpl, Option.some.injEq, Prod.mk.injEq] at hfail
        obtain ⟨hph, hmsg⟩ := hfail
        subst hph; subst hmsg
        simp only [errorBranch, mark_task_complete_self, List.cons_append, List.nil_append]
        refine c3_close coll cid now rest.length rest t.task_id _ _ _ _ _ _ ?_ ?_ ?_ ?_ ?_ ?_ ?_
        · rfl
        · rfl
        · exact Nat.le_refl _
        · exact hfr
        · simp [store_task_history_logs, log_task_message_logs]
        · refine (store_task_update_filter _ _ _ _ _ _ _
              ⟨cid, t.task_id, t.content, "in_progress", now, none, none⟩ ?_
              (by simp [taskKeyEq])).trans ?_
          · rw [log_task_message_history, log_task_message_history, log_task_message_history,
              log_task_message_history,
              store_task_fresh store t.task_id t.content cid "in_progress" now hrow,
              List.filter_append, hrow]
            simp
          · rfl
        · simp
      | ok pres =>
        cases him : coll t.task_id "implementation" with
        | error e3 =>
          rw [firstFailure] at hfail
          rw [hres] at hfail
          simp only [Bool.false_eq_true, if_false, hpl, him, Option.some.injEq,
            Prod.mk.injEq] at hfail
          obtain ⟨hph, hmsg⟩ := hfail
          subst hph; subst hmsg
          simp only [errorBranch, mark_task_complete_self, List.cons_append, List.nil_append]
          refine c3_close coll cid now rest.length rest t.task_id _ _ _ _ _ _ ?_ ?_ ?_ ?_ ?_ ?_ ?_
          · rfl
          · rfl
          · exact Nat.le_refl _
          · exact hfr
          · simp [store_task_history_logs, log_task_message_logs]
          · refine (store_task_update_filter _ _ _ _ _ _ _
                ⟨cid, t.task_id, t.content, "in_progress", now, none, none⟩ ?_
                (by simp [taskKeyEq])).trans ?_
            · rw [log_task_message_history, log_task_message_history, log_task_message_history,
                log_task_message_history, log_task_message_history, log_task_message_history,
                store_task_fresh store t.task_id t.content cid "in_progress" now hrow,
                List.filter_append, hrow]
              simp
            · rfl
          · simp
        | ok ires =>
          rw [firstFailure] at hfail
          rw [hres] at hfail
          simp only [Bool.false_eq_true, if_false, hpl, him] at hfail
          cases hfail

theorem c7_close (coll : Collab) (cid : String) (now : Nat) (fuel : Nat) (rest : List Task)
    (tid : String) (st1 : ConnectionState) (store1 : MemorySaver) (ev1 : List Event)
    (compRow : TaskRow) (evExp : List Event)
    (hq1 : st1.task_queue = rest) (hp1 : st1.is_processing = false)
    (hfuel : rest.length ≤ fuel)
    (hfr : ∀ u ∈ rest, ¬ u.task_id = tid)
    (hevf : ev1.filter (fun e => eventTaskId e == some tid) = evExp)
    (hhist : store1.task_history.filter (fun r => r.task_id == tid) = [compRow])
    (hcomp : tid ∈ st1.completed_tasks) :
    (if st1.has_pending_tasks = true
        then process_next_task_go ⟨coll, noCancel, cid, now⟩ fuel ⟨st1, store1, ev1⟩
        else ⟨st1, store1, ev1⟩).events.filter (fun e => eventTaskId e == some tid)
      = evExp ∧
    (if st1.has_pending_tasks = true
        then process_next_task_go ⟨coll, noCancel, cid, now⟩ fuel ⟨st1, store1, ev1⟩
        else ⟨st1, store1, ev1⟩).store.task_history.filter (fun r => r.task_id == tid)
      = [compRow] ∧
    tid ∈ (if st1.has_pending_tasks = true
        then process_next_task_go ⟨coll, noCancel, cid, now⟩ fuel ⟨st1, store1, ev1⟩
        else ⟨st1, store1, ev1⟩).state.completed_tasks ∧
    (∀ r rest2, rest = r :: rest2 →
      Event.phase_started "research" r.task_id ∈
        (if st1.has_pending_tasks = true
         then process_next_task_go ⟨coll, noCancel, cid, now⟩ fuel ⟨st1, store1, ev1⟩
         else ⟨st1, store1, ev1⟩).events) := by
  obtain ⟨⟨⟨dEv, hEv, hEvId⟩, ⟨dLog, hLog⟩, ⟨dComp, hComp⟩, hHist⟩, hQ, hP, hHead⟩ :=
    tail_run_spec coll cid now fuel rest st1 store1 ev1 hq1 hp1 hfuel
  refine ⟨?_, ?_, ?_, hHead⟩
  · rw [hEv, List.filter_append, hevf]
    have hnil : dEv.filter (fun e => eventTaskId e == some tid) = [] := by
      apply List.filter_eq_nil_iff.mpr
      intro e he
      obtain ⟨u, hu, hid⟩ := hEvId e he
      simp only [hid, beq_iff_eq, Option.some.injEq]
      exact hfr u hu
    rw [hnil, List.append_nil]
  · rw [hHist tid hfr, hhist]
  · rw [hComp]
    exact List.mem_append_left _ hcomp

/-- Claim C7: on a research_only connection the events emitted for a
task are exactly phase_started research, research_complete and
task_complete, with no planning or implementation events; the task ends
completed in the store and in the connection state, and the next queued
task (if any) is started. -/
theorem C7_research_only_pipeline (coll : Collab) (cid : String) (now : Nat)
    (t : Task) (rest : List Task) (st : ConnectionState) (store : MemorySaver) (res : String)
    (hro : st.research_only = true) (hp : st.is_processing = false)
    (hq : st.task_queue = t :: rest)
    (hok : coll t.task_id "research" = Except.ok res)
    (hfr : ∀ u ∈ rest, ¬ u.task_id = t.task_id)
    (hrow : store.task_history.filter (fun r => r.task_id == t.task_id) = []) :
    (process_next_task ⟨coll, noCancel, cid, now⟩ ⟨st, store, []⟩).events.filter
        (fun e => eventTaskId e == some t.task_id)
      = [Event.phase_started "research" t.task_id, Event.research_complete res t.task_id,
         Event.task_complete (some "Research-only mode") t.task_id] ∧
    (process_next_task ⟨coll, noCancel, cid, now⟩ ⟨st, store, []⟩).store.task_history.filter
        (fun r => r.task_id == t.task_id)
      = [⟨cid, t.task_id, t.content, "completed", now, some now,
          some [("research_only", JVal.b true)]⟩] ∧
    t.task_id ∈ (process_next_task ⟨coll, noCancel, cid, now⟩ ⟨st, store, []⟩).state.completed_tasks ∧
    (∀ r rest2, rest = r :: rest2 →
      Event.phase_started "research" r.task_id ∈
        (process_next_task ⟨coll, noCancel, cid, now⟩ ⟨st, store, []⟩).events) := by
  obtain ⟨mo, ro, cid0, cph, cur, q, comp, prc, md⟩ := st
  simp only at hro hp hq
  subst hro; subst hp; subst hq
  simp only [process_next_task, List.length_cons, process_next_task_go,
    ConnectionState.pop_next_task, awaitPoint_noCancel, List.cons_append, List.nil_append, hok,
    mark_task_complete_self]
  refine c7_close coll cid now rest.length rest t.task_id _ _ _ _ _ ?_ ?_ ?_ ?_ ?_ ?_ ?_
  · rfl
  · rfl
  · exact Nat.le_refl _
  · exact hfr
  · simp [eventTaskId]
  · refine (mark_task_filter_row _ _ _ _ _
        ⟨cid, t.task_id, t.content, "in_progress", now, none, none⟩ ?_
        (by simp [taskKeyEq])).trans ?_
    · rw [log_task_message_history, log_task_message_history, log_task_message_history,
        store_task_fresh store t.task_id t.content cid "in_progress" now hrow,
        List.filter_append, hrow]
      simp
    · rfl
  · simp

/-- Counterexample to claim C3 as stated: the error log entry appended
for a failing task does not name the failing phase. On a concrete run
whose research phase raises "boom", the unique error-type log entry has
message "Error during task execution: boom", which mentions none of the
three phase names, although the failing phase is research. -/
theorem C3_counterexample :
    firstFailure (fun _ _ => Except.error "boom") "T1" false = some ("research", "boom") ∧
    ((process_next_task ⟨fun _ _ => Except.error "boom", noCancel, "c", 7⟩
        ⟨{ initialState none false (some "c") with
           task_queue := [⟨"do stuff", "T1", "u", "pending"⟩] }, {}, []⟩).store.task_logs.filter
        (fun l => l.message_type == "error")).map LogRow.message
      = ["Error during task execution: boom"] ∧
    strMentions "Error during task execution: boom" "research" = false ∧
    strMentions "Error during task execution: boom" "planning" = false ∧
    strMentions "Error during task execution: boom" "implementation" = false := by
  decide

/-- Witness for the amended C3 at a concrete two-task session whose
first task fails in research. -/
theorem C3_phase_error_isolation_witness :
    (⟨"c", "T1", "Error during task execution: boom", "error", 7⟩ : LogRow) ∈
      (process_next_task ⟨fun _ _ => Except.error "boom", noCancel, "c", 7⟩
        ⟨{ initialState none false (some "c") with
           task_queue := [⟨"do stuff", "T1", "u", "pending"⟩,
                          ⟨"next", "T2", "u", "pending"⟩] }, {}, []⟩).store.task_logs ∧
    Event.phase_started "research" "T2" ∈
      (process_next_task ⟨fun _ _ => Except.error "boom", noCancel, "c", 7⟩
        ⟨{ initialState none false (some "c") with
           task_queue := [⟨"do stuff", "T1", "u", "pending"⟩,
                          ⟨"next", "T2", "u", "pending"⟩] }, {}, []⟩).events := by
  have h := C3_phase_error_isolation (fun _ _ => Except.error "boom") "c" 7
    ⟨"do stuff", "T1", "u", "pending"⟩ [⟨"next", "T2", "u", "pending"⟩]
    { initialState none false (some "c") with
      task_queue := [⟨"do stuff", "T1", "u", "pending"⟩, ⟨"next", "T2", "u", "pending"⟩] }
    {} "research" "boom" rfl rfl (by decide) rfl rfl
  exact ⟨h.1, h.2.2.2.2.2 ⟨"next", "T2", "u", "pending"⟩ [] rfl⟩

/-- Witness for C7 at a concrete research-only session with a queued
second task. -/
theorem C7_research_only_pipeline_witness :
    (process_next_task ⟨fun tid _ => Except.ok ("res-" ++ tid), noCancel, "c", 9⟩
        ⟨{ initialState none true (some "c") with
           task_queue := [⟨"one", "T1", "u", "pending"⟩, ⟨"two", "T2", "u", "pending"⟩] },
         {}, []⟩).events.filter (fun e => eventTaskId e == some "T1")
      = [Event.phase_started "research" "T1", Event.research_complete "res-T1" "T1",
         Event.task_complete (some "Research-only mode") "T1"] ∧
    (process_next_task ⟨fun tid _ => Except.ok ("res-" ++ tid), noCancel, "c", 9⟩
        ⟨{ initialState none true (some "c") with
           task_queue := [⟨"one", "T1", "u", "pending"⟩, ⟨"two", "T2", "u", "pending"⟩] },
         {}, []⟩).store.task_history.filter (fun r => r.task_id == "T1")
      = [⟨"c", "T1", "one", "completed", 9, some 9, some [("research_only", JVal.b true)]⟩] ∧
    "T1" ∈ (process_next_task ⟨fun tid _ => Except.ok ("res-" ++ tid), noCancel, "c", 9⟩
        ⟨{ initialState none true (some "c") with
           task_queue := [⟨"one", "T1", "u", "pending"⟩, ⟨"two", "T2", "u", "pending"⟩] },
         {}, []⟩).state.completed_tasks ∧
    Event.phase_started "research" "T2" ∈
      (process_next_task ⟨fun tid _ => Except.ok ("res-" ++ tid), noCancel, "c", 9⟩
        ⟨{ initialState none true (some "c") with
           task_queue := [⟨"one", "T1", "u", "pending"⟩, ⟨"two", "T2", "u", "pending"⟩] },
         {}, []⟩).events := by
  have h := C7_research_only_pipeline (fun tid _ => Except.ok ("res-" ++ tid)) "c" 9
    ⟨"one", "T1", "u", "pending"⟩ [⟨"two", "T2", "u", "pending"⟩]
    { initialState none true (some "c") with
      task_queue := [⟨"one", "T1", "u", "pending"⟩, ⟨"two", "T2", "u", "pending"⟩] }
    {} "res-T1" rfl rfl rfl rfl (by decide) rfl
  exact ⟨h.1, h.2.1, h.2.2.1, h.2.2.2 ⟨"two", "T2", "u", "pending"⟩ [] rfl⟩

end EnhancedRA
